import Mathlib

/-!
# Verification of the ticket-lottery engine and the roulette server

Two developments:

* `Lottery`: the periodic ticket-lottery core (round windowing, ticket-range
  allocation, finalization).  The repository ships only the roulette/spin
  server under `src/server.py`; the lottery engine itself is not part of the
  shipped sources, so every definition in this namespace is modelled from the
  specification (sections 3–5 of the design document) and is marked as such.
* `Roulette`: a shallow embedding of the relevant request handlers of
  `src/server.py` (`inventory_sell`, `spin`, `claim`) over an explicit
  relational state.
-/

namespace Lottery

/-- Modelled from the spec: track configuration (§3) — the lottery engine is
not present under `src/`; only its specification is available.  `ticket_price`,
`period_seconds` are positive integers, `max_qty_per_purchase` bounds a single
purchase. -/
structure Track where
  ticket_price : Nat
  period_seconds : Nat
  max_qty_per_purchase : Nat
  deriving Repr, DecidableEq

/-- Modelled from the spec: one Round row (§3), for a fixed (track,
period_start) key. -/
structure Round where
  period_start : Nat
  period_end : Nat
  ticket_price : Nat
  total_spent : Nat
  total_tickets : Nat
  winner_user_id : Option Nat
  winner_ticket_no : Option Nat
  prize_amount : Option Nat
  commission_amount : Option Nat
  drawn_at : Option Nat
  deriving Repr, DecidableEq

/-- Modelled from the spec: one Entry row (§3): a contiguous ticket range
bought by one user. -/
structure Entry where
  user_id : Nat
  qty : Nat
  start_no : Nat
  end_no : Nat
  created_at : Nat
  deriving Repr, DecidableEq

/-- A call into the external wallet collaborator (§6).  The wallet ledger is
out of scope, so the model records the sequence of debit/credit calls. -/
inductive WalletOp where
  | debit (user_id amount : Nat)
  | credit (user_id amount : Nat)
  deriving Repr, DecidableEq

/-- Modelled from the spec: the durable state for one (track, period_start)
key — the Round row (absent until lazily created), its Entries in purchase
order, the track's House commission accumulator, and the log of wallet calls
issued (most recent first). -/
structure LotteryState where
  round : Option Round
  entries : List Entry
  house : Nat
  log : List WalletOp
  deriving Repr, DecidableEq

/-- Modelled from the spec (§4.1): window function
`period_start(now, period_seconds) = now - (now mod period_seconds)`. -/
def periodStart (now period_seconds : Nat) : Nat :=
  now - now % period_seconds

/-- Modelled from the spec (§4.2): the freshly inserted Round row —
`period_end = period_start + period_seconds`, `ticket_price` copied from the
track, zeroed counters, null draw fields. -/
def newRound (tr : Track) (ps : Nat) : Round :=
  { period_start := ps
    period_end := ps + tr.period_seconds
    ticket_price := tr.ticket_price
    total_spent := 0
    total_tickets := 0
    winner_user_id := none
    winner_ticket_no := none
    prize_amount := none
    commission_amount := none
    drawn_at := none }

/-- Modelled from the spec (§4.2): `ensure_round` — insert-if-absent; a no-op
when the row already exists. -/
def ensureRound (tr : Track) (ps : Nat) (s : LotteryState) : LotteryState :=
  match s.round with
  | some _ => s
  | none => { s with round := some (newRound tr ps) }

/-- Close the round with a zero payout: the empty-round outcome of
steps 4 and 7 of §4.4. -/
def closeEmpty (r : Round) (now : Nat) (s : LotteryState) : LotteryState :=
  { s with
    round := some { r with
      drawn_at := some now
      prize_amount := some 0
      commission_amount := some 0
      winner_user_id := none } }

/-- Modelled from the spec (§4.4): `finalize(track, period_start, now)`.
The server-side random draw of step 5 is passed in as `draw`, mapping
`total_tickets` to the winning ticket number; all steps run under the round's
row lock, so the function is one atomic state transition.  Returns
`true` iff this call performed the transition. -/
def finalize (draw : Nat → Nat) (now : Nat) (s : LotteryState) :
    Bool × LotteryState :=
  match s.round with
  | none => (false, s)
  | some r =>
    if r.drawn_at.isSome then (false, s)
    else if now < r.period_end then (false, s)
    else if r.total_tickets = 0 ∨ r.total_spent = 0 then
      (true, closeEmpty r now s)
    else
      let win_no := draw r.total_tickets
      match s.entries.find? (fun e => e.start_no ≤ win_no && win_no ≤ e.end_no) with
      | none => (true, closeEmpty r now s)
      | some e =>
        let prize := r.total_spent * 8 / 10
        let commission := r.total_spent - prize
        (true,
          { s with
            round := some { r with
              winner_user_id := some e.user_id
              winner_ticket_no := some win_no
              prize_amount := some prize
              commission_amount := some commission
              drawn_at := some now }
            house := s.house + commission
            log := WalletOp.credit e.user_id prize :: s.log })

/-- Outcome of a `buy` call (§4.3, §7). -/
inductive BuyOutcome where
  | ok (myTickets : Nat)
  | invalidQuantity
  | insufficientFunds
  | roundNotBuyable
  | roundMissing
  deriving Repr, DecidableEq

/-- The caller's cumulative ticket count for the round: the sum of the
caller's own entries (§4.3 step 7 — a read, not a counter). -/
def myTickets (user : Nat) (entries : List Entry) : Nat :=
  (entries.filter (fun e => e.user_id = user)).foldr (fun e a => e.qty + a) 0

/-- Steps 2–7 of §4.3, on the post-sweep, post-`ensure_round` state `s2`,
under the round's row lock: re-check the window, debit the buyer, append the
Entry at `start_no = total_tickets + 1`, bump the aggregate counters.
`debitOk` is the external wallet collaborator's answer to the step-3 debit
(`false` = `InsufficientFunds`, in which case the transaction rolls back and
no partial state is persisted). -/
def buyCore (user qty : Nat) (debitOk : Bool) (now : Nat)
    (s2 : LotteryState) : LotteryState × BuyOutcome :=
  match s2.round with
  | none => (s2, .roundMissing)
  | some r =>
    if r.period_end ≤ now then (s2, .roundNotBuyable)
    else if debitOk = false then (s2, .insufficientFunds)
    else
      let cost := r.ticket_price * qty
      let e : Entry :=
        { user_id := user, qty := qty
          start_no := r.total_tickets + 1
          end_no := r.total_tickets + qty
          created_at := now }
      let r' := { r with
        total_tickets := r.total_tickets + qty
        total_spent := r.total_spent + cost }
      let s3 := { s2 with
        round := some r'
        entries := s2.entries ++ [e]
        log := WalletOp.debit user cost :: s2.log }
      (s3, .ok (myTickets user s3.entries))

/-- Modelled from the spec (§4.3): `buy(track, user_id, qty, now)` — validate
the quantity, run the step-1 sweep (restricted to this one
(track, period_start) key, a `finalize` call on the stored round, with `draw`
feeding its random pick), `ensure_round`, then steps 2–7 under the lock. -/
def buy (tr : Track) (user qty : Nat) (debitOk : Bool) (draw : Nat → Nat)
    (now : Nat) (s : LotteryState) : LotteryState × BuyOutcome :=
  if qty < 1 ∨ tr.max_qty_per_purchase < qty then (s, .invalidQuantity)
  else
    buyCore user qty debitOk now
      (ensureRound tr (periodStart now tr.period_seconds) (finalize draw now s).2)

/-- One operation of the core engine, used to state invariants that hold
after every operation. -/
inductive Op where
  | opEnsure (ps : Nat)
  | opBuy (user qty : Nat) (debitOk : Bool) (now : Nat)
  | opFinalize (now : Nat)
  deriving Repr

/-- Apply one operation (the draw source is a parameter). -/
def applyOp (tr : Track) (draw : Nat → Nat) (s : LotteryState) : Op → LotteryState
  | .opEnsure ps => ensureRound tr ps s
  | .opBuy user qty debitOk now => (buy tr user qty debitOk draw now s).1
  | .opFinalize now => (finalize draw now s).2

/-- Apply a sequence of operations, oldest first. -/
def applyOps (tr : Track) (draw : Nat → Nat) (s : LotteryState) :
    List Op → LotteryState
  | [] => s
  | op :: ops => applyOps tr draw (applyOp tr draw s op) ops

/-- The empty store: no round row yet, no entries, zero house commission. -/
def initState : LotteryState :=
  { round := none, entries := [], house := 0, log := [] }

/-- Apply a sequence of `buy` calls (user, qty, debitOk, now), oldest first.
The row lock (§4.2) serializes concurrent buyers, so any concurrent schedule
of buys is observationally one such sequence. -/
def buySeq (tr : Track) (draw : Nat → Nat) (s : LotteryState) :
    List (Nat × Nat × Bool × Nat) → LotteryState
  | [] => s
  | (u, q, ok, now) :: rest => buySeq tr draw (buy tr u q ok draw now s).1 rest

/-- `entriesChainFrom k es` : the entries `es`, in purchase order, cover the
ticket numbers starting exactly at `k` with contiguous, well-formed ranges
(`end_no - start_no + 1 = qty`, next range starts at `end_no + 1`). -/
def entriesChainFrom : Nat → List Entry → Bool
  | _, [] => true
  | k, e :: es =>
    e.start_no == k && e.end_no + 1 == e.start_no + e.qty &&
      entriesChainFrom (e.end_no + 1) es

/-- Total quantity across entries. -/
def sumQty (entries : List Entry) : Nat :=
  entries.foldr (fun e a => e.qty + a) 0

/-- The §3 Entry invariant: the ranges are gap-free, non-overlapping, start
at 1, and partition `[1, total]` exactly, in purchase order. -/
def entriesPartition (entries : List Entry) (total : Nat) : Bool :=
  entriesChainFrom 1 entries && sumQty entries == total

/-- States whose Entries partition `[1, total_tickets]` of their round
(vacuously, an absent round has no entries). -/
def EntriesInv (s : LotteryState) : Prop :=
  match s.round with
  | none => s.entries = []
  | some r => entriesPartition s.entries r.total_tickets = true

/-- The §3 money invariant: `total_spent == total_tickets * ticket_price`. -/
def MoneyInv (s : LotteryState) : Prop :=
  ∀ r, s.round = some r → r.total_spent = r.total_tickets * r.ticket_price

/-! Concrete fixtures: the worked example of §8 — track with
`period_seconds = 600`, `ticket_price = 1`; user 1 buys qty 3 (range `[1,3]`),
user 2 buys qty 7 (range `[4,10]`); the window `[0, 600)` closes with
`total_tickets = 10`, `total_spent = 10`. -/

def exTrack : Track :=
  { ticket_price := 1, period_seconds := 600, max_qty_per_purchase := 100 }

/-- The example round after both purchases, still undrawn. -/
def exRound : Round :=
  { period_start := 0, period_end := 600, ticket_price := 1
    total_spent := 10, total_tickets := 10
    winner_user_id := none, winner_ticket_no := none
    prize_amount := none, commission_amount := none, drawn_at := none }

def exEntryA : Entry :=
  { user_id := 1, qty := 3, start_no := 1, end_no := 3, created_at := 10 }

def exEntryB : Entry :=
  { user_id := 2, qty := 7, start_no := 4, end_no := 10, created_at := 20 }

/-- The example store right before finalization. -/
def exState : LotteryState :=
  { round := some exRound, entries := [exEntryA, exEntryB], house := 0
    log := [WalletOp.debit 2 7, WalletOp.debit 1 3] }

/-- An undrawn, ended round in which nobody bought tickets. -/
def exEmptyRound : Round :=
  { period_start := 0, period_end := 600, ticket_price := 1
    total_spent := 0, total_tickets := 0
    winner_user_id := none, winner_ticket_no := none
    prize_amount := none, commission_amount := none, drawn_at := none }

/-- The store holding only the empty round. -/
def exEmptyState : LotteryState :=
  { round := some exEmptyRound, entries := [], house := 0, log := [] }

end Lottery

-- DEFS_END

namespace Roulette

/-!
Shallow embedding of the request handlers of `src/server.py` that the claims
touch, over an explicit relational state.  Modelling conventions:

* Postgres tables are lists of rows in insertion order; `SELECT ... WHERE`
  is `List.find?`/`List.filter`, `UPDATE` is `List.map`, `DELETE` is
  `List.filter`, `ORDER BY` is a stable `List.mergeSort`.
* A handler runs inside one transaction (`with con:`): it either returns the
  new state with its JSON response, or raises (`Except.error`), in which case
  the transaction rolls back and no state is returned.
* Cryptographic hashes are uninterpreted deterministic function parameters
  (`sha256 : String → String`, `hmacSha256 : String → String → List Nat`
  mapping key and message to the 32 digest bytes).
* Nondeterministic inputs (`secrets.token_hex`, `uuid.uuid4`,
  `random.random() < 0.02`, clock) are explicit parameters.
* Columns never read by the embedded handlers (user profile fields,
  `created_at` timestamps that only get stored, `icon_url` of inventory) are
  omitted from the row types.
-/

/-- An uncaught Python exception: `NameError`/`UnboundLocalError` (or another
interpreter-raised error such as `TypeError`/`IndexError` on unreachable
defensive paths), or a raised `HTTPException(status_code=...)`. -/
inductive PyErr where
  | nameError
  | httpError (status : Nat)
  deriving Repr, DecidableEq

/-- Reading a Python local variable: `none` models a variable that is
function-local (it is assigned somewhere in the function body) but unbound at
the point of the read, which raises `UnboundLocalError`, a subclass of
`NameError`. -/
def readLocal {α : Type} : Option α → Except PyErr α
  | some x => Except.ok x
  | none => Except.error PyErr.nameError

/-- In `inventory_sell` (server.py line 1058) the first branch reads the
local `case_id`, which is only assigned further down (lines 1063, 1073), so
it is unbound at the read.  Its Python type there would be `Optional[int]`. -/
def case_id_local : Option (Option Int) := none

/-- In `inventory_sell` (server.py line 1069) the `else` branch reads the
local `cost`, which is only assigned further down (lines 1064, 1074), so it
is unbound at the read. -/
def cost_local : Option Int := none

/-- One row of `users` (columns used by the embedded handlers). -/
structure UserRow where
  tg_user_id : String
  balance : Int
  banned : Bool
  nonce : Int
  client_seed : Option String
  server_seed : Option String
  server_seed_hash : Option String
  last_spin_at : Option Int
  deriving Repr, DecidableEq

/-- One row of `prizes`. -/
structure PrizeRow where
  id : Int
  name : String
  icon_url : Option String
  cost : Int
  weight : Int
  is_active : Bool
  sort_order : Int
  deriving Repr, DecidableEq

/-- One row of `cases` (columns used by `inventory_sell`). -/
structure CaseRow where
  id : Int
  price : Int
  is_active : Bool
  sort_order : Int
  deriving Repr, DecidableEq

/-- One row of `case_prizes`. -/
structure CasePrizeRow where
  case_id : Int
  prize_id : Int
  weight : Int
  is_active : Bool
  sort_order : Int
  deriving Repr, DecidableEq

/-- One row of `spins`. `rng_bytes` holds the digest whose hex string the
source stores as `rng_hex`. -/
structure SpinRow where
  spin_id : String
  tg_user_id : String
  case_id : Option Int
  bet_cost : Int
  prize_id : Int
  prize_name : String
  prize_cost : Int
  status : String
  created_at : Int
  nonce : Int
  client_seed : String
  server_seed : String
  server_seed_hash : String
  rng_bytes : List Nat
  deriving Repr, DecidableEq

/-- One row of `inventory`. -/
structure InvRow where
  id : Int
  tg_user_id : String
  prize_id : Int
  prize_name : String
  prize_cost : Int
  is_locked : Bool
  created_at : Int
  deriving Repr, DecidableEq

/-- One row of `ledger`. -/
structure LedgerRow where
  tg_user_id : String
  delta : Int
  reason : String
  ref : Option String
  created_at : Int
  deriving Repr, DecidableEq

/-- Response of `POST /inventory/sell`. -/
structure SellResp where
  ok : Bool
  inventory_id : Int
  credited : Int
  balance : Int
  deriving Repr, DecidableEq

/-- Response of `POST /claim` (`credited` present only on a sell). -/
structure ClaimResp where
  ok : Bool
  status : String
  balance : Int
  credited : Option Int
  deriving Repr, DecidableEq

/-- Response of `POST /spin`, with the `fair` sub-object flattened. -/
structure SpinResp where
  spin_id : String
  case_id : Option Int
  bet_cost : Int
  id : Int
  name : String
  icon_url : Option String
  cost : Int
  balance : Int
  fair_client_seed : String
  fair_nonce : Int
  fair_server_seed_hash : String
  fair_server_seed : String
  fair_rng_bytes : List Nat
  fair_next_server_seed_hash : String
  deriving Repr, DecidableEq

/-- A cached JSON response in the `idempotency` table (the stored JSON is
replayed verbatim, whatever endpoint produced it). -/
inductive RespVal where
  | sell (r : SellResp)
  | spinR (r : SpinResp)
  | claimR (r : ClaimResp)
  deriving Repr, DecidableEq

/-- One row of `idempotency`. -/
structure IdemRow where
  tg_user_id : String
  key : String
  response : RespVal
  created_at : Int
  deriving Repr, DecidableEq

/-- The database state. -/
structure ServerState where
  users : List UserRow
  prizes : List PrizeRow
  cases : List CaseRow
  case_prizes : List CasePrizeRow
  spins : List SpinRow
  inventory : List InvRow
  ledger : List LedgerRow
  idem : List IdemRow
  deriving Repr, DecidableEq

/-- Environment-derived configuration (server.py lines 75–90).
`SPIN_COOLDOWN_SEC` is a float in the source; only its comparison with
integer second differences matters, so it is modelled as an integer. -/
structure Config where
  START_BALANCE : Int
  SPIN_COOLDOWN_SEC : Int
  REQUIRE_CLAIM_BEFORE_NEXT_SPIN : Bool
  IDEMPOTENCY_TTL_SEC : Int
  deriving Repr, DecidableEq

/-- Fresh random tokens consumed by `ensure_user_fairness`
(`secrets.token_hex(16)` and `_new_server_seed()`). -/
structure FairRand where
  clientSeed : String
  serverSeed : String
  deriving Repr, DecidableEq

/-- `SELECT ... FROM users WHERE tg_user_id=%s` (primary key). -/
def findUser (users : List UserRow) (uid : String) : Option UserRow :=
  users.find? (fun u => u.tg_user_id == uid)

/-- `UPDATE users SET ... WHERE tg_user_id=%s`. -/
def updateUser (users : List UserRow) (uid : String) (f : UserRow → UserRow) :
    List UserRow :=
  users.map (fun u => if u.tg_user_id == uid then f u else u)

/-- Python's `str.strip()`: drop leading and trailing whitespace (defined
with structural recursion so that concrete witnesses evaluate). -/
def pyStrip (s : String) : String :=
  ⟨((s.data.dropWhile Char.isWhitespace).reverse.dropWhile
      Char.isWhitespace).reverse⟩

/-- Python truthiness test `value is None or str(value).strip() == ""`. -/
def strBlank : Option String → Bool
  | none => true
  | some s => pyStrip s == ""

/-- The per-row update applied by `ensure_user_fairness` (server.py lines
707–727): fill in any missing provably-fair parameters.  The `nonce` column is
`NOT NULL DEFAULT 0`, so the source's `nonce is None` branch can never fire
and is not modelled. -/
def fairRepair (sha256 : String → String) (fr : FairRand) (u : UserRow) :
    UserRow :=
  let u1 := if strBlank u.client_seed then
    { u with client_seed := some fr.clientSeed } else u
  if strBlank u1.server_seed then
    { u1 with server_seed := some fr.serverSeed,
              server_seed_hash := some (sha256 fr.serverSeed) }
  else if strBlank u1.server_seed_hash then
    { u1 with server_seed_hash := some (sha256 (u1.server_seed.getD "")) }
  else u1

/-- `ensure_user_fairness` (server.py lines 696–727). -/
def ensure_user_fairness (sha256 : String → String) (fr : FairRand)
    (st : ServerState) (uid : String) : ServerState :=
  match findUser st.users uid with
  | none => st
  | some _ =>
    { st with users := updateUser st.users uid (fairRepair sha256 fr) }

/-- The user's `banned` flag (`FALSE` when the row is absent, as in
`require_not_banned`). -/
def isBanned (st : ServerState) (uid : String) : Bool :=
  match findUser st.users uid with
  | some u => u.banned
  | none => false

/-- The user's balance, when the row exists. -/
def balanceOf (st : ServerState) (uid : String) : Option Int :=
  (findUser st.users uid).map (fun u => u.balance)

/-- `get_or_create_user` (server.py lines 770–798): insert-if-absent with the
start balance, then ensure fairness parameters.  The profile-field update
(username/first/last/photo) and the returned balance are not used by any
embedded handler and are omitted. -/
def get_or_create_user (cfg : Config) (sha256 : String → String)
    (fr : FairRand) (st : ServerState) (uid : String) : ServerState :=
  let st1 :=
    if (findUser st.users uid).isSome then st
    else { st with users := st.users ++
      [{ tg_user_id := uid, balance := cfg.START_BALANCE, banned := false,
         nonce := 0, client_seed := none, server_seed := none,
         server_seed_hash := none, last_spin_at := none }] }
  ensure_user_fairness sha256 fr st1 uid

/-- `require_not_banned` (server.py lines 729–733). -/
def require_not_banned (st : ServerState) (uid : String) : Except PyErr Unit :=
  match findUser st.users uid with
  | some u => if u.banned then Except.error (PyErr.httpError 403) else Except.ok ()
  | none => Except.ok ()

/-- `_idem_get` (server.py lines 743–746). -/
def idem_get (st : ServerState) (uid key : String) : Option RespVal :=
  (st.idem.find? (fun e => e.tg_user_id == uid && e.key == key)).map (·.response)

/-- `_idem_put` (server.py lines 748–754): upsert. -/
def idem_put (st : ServerState) (uid key : String) (resp : RespVal)
    (now : Int) : ServerState :=
  if (st.idem.find? (fun e => e.tg_user_id == uid && e.key == key)).isSome then
    { st with idem := st.idem.map (fun e =>
        if e.tg_user_id == uid && e.key == key then
          { e with response := resp } else e) }
  else
    { st with idem := st.idem ++
        [{ tg_user_id := uid, key := key, response := resp, created_at := now }] }

/-- `cleanup_idempotency` (server.py lines 762–768). -/
def cleanup_idempotency (cfg : Config) (now : Int) (st : ServerState) :
    ServerState :=
  if cfg.IDEMPOTENCY_TTL_SEC ≤ 0 then st
  else { st with idem :=
    st.idem.filter (fun e => ¬ e.created_at < now - cfg.IDEMPOTENCY_TTL_SEC) }

/-- `ledger_add` (server.py lines 756–760). -/
def ledger_add (st : ServerState) (uid : String) (delta : Int) (reason : String)
    (ref : Option String) (now : Int) : ServerState :=
  { st with ledger := st.ledger ++
      [{ tg_user_id := uid, delta := delta, reason := reason, ref := ref,
         created_at := now }] }

/-- `UPDATE users SET balance = balance + %s WHERE tg_user_id = %s`. -/
def addBalance (st : ServerState) (uid : String) (delta : Int) : ServerState :=
  { st with users := updateUser st.users uid (fun u =>
      { u with balance := u.balance + delta }) }

/-- `cur.fetchone()[0]` after selecting the user's balance: crashes with an
interpreter error if no row came back (unreachable after
`get_or_create_user`). -/
def fetchBalance (st : ServerState) (uid : String) : Except PyErr Int :=
  match findUser st.users uid with
  | some u => Except.ok u.balance
  | none => Except.error PyErr.nameError

/-- Insert into a sorted list (kernel-computable stable insertion sort, used
to model SQL `ORDER BY`; all sort keys below end in the unique primary key,
so the sorted permutation is unique and any correct sort models the query). -/
def insertBy {α : Type} (le : α → α → Bool) (x : α) : List α → List α
  | [] => [x]
  | y :: ys => if le x y then x :: y :: ys else y :: insertBy le x ys

/-- Insertion sort by `le`. -/
def sortBy {α : Type} (le : α → α → Bool) : List α → List α
  | [] => []
  | x :: xs => insertBy le x (sortBy le xs)

/-- The prize dict built by `fetch_active_prizes` / used by `spin`. -/
structure PrizeDict where
  id : Int
  name : String
  icon_url : Option String
  cost : Int
  weight : Int
  deriving Repr, DecidableEq

/-- Normalization of `icon_url`:
`str(r[2]).strip() if r[2] is not None and str(r[2]).strip() else None`. -/
def normIcon : Option String → Option String
  | none => none
  | some s => if pyStrip s == "" then none else some (pyStrip s)

/-- `fetch_active_prizes` (server.py lines 833–870): active prizes with
positive weight, ordered by `sort_order, id`; when a `case_id` is given, the
join of `case_prizes` with `prizes`, using the per-case weight and ordered by
`cp.sort_order, p.sort_order, p.id`. -/
def fetch_active_prizes (st : ServerState) (case_id : Option Int) :
    List PrizeDict :=
  match case_id with
  | none =>
    (sortBy (fun a b => a.sort_order < b.sort_order ||
        (a.sort_order == b.sort_order && a.id ≤ b.id))
      (st.prizes.filter (fun p => p.is_active && 0 < p.weight))).map
      (fun p => { id := p.id, name := p.name, icon_url := normIcon p.icon_url,
                  cost := p.cost, weight := p.weight })
  | some c =>
    (sortBy (fun a b => a.1.sort_order < b.1.sort_order ||
        (a.1.sort_order == b.1.sort_order && (a.2.sort_order < b.2.sort_order ||
          (a.2.sort_order == b.2.sort_order && a.2.id ≤ b.2.id))))
      ((st.case_prizes.filter (fun cp =>
          cp.case_id == c && cp.is_active && 0 < cp.weight)).filterMap
        (fun cp => (st.prizes.find? (fun p => p.id == cp.prize_id &&
            p.is_active)).map (fun p => (cp, p))))).map
      (fun x => { id := x.2.id, name := x.2.name,
                  icon_url := normIcon x.2.icon_url, cost := x.2.cost,
                  weight := x.1.weight })

/-- `DEFAULT_PRIZES` (server.py lines 95–101), as mapped by `spin`
(line 1380: `icon_url` is absent from the dicts, so it maps to `None`). -/
def DEFAULT_PRIZES : List PrizeDict :=
  [{ id := 1, name := "❤️ Сердце", cost := 15, icon_url := none, weight := 50 },
   { id := 2, name := "🧸 Мишка", cost := 25, icon_url := none, weight := 25 },
   { id := 3, name := "🎂 Торт", cost := 50, icon_url := none, weight := 15 },
   { id := 4, name := "💎 Алмаз", cost := 100, icon_url := none, weight := 10 },
   { id := 5, name := "🌹 Роза", cost := 25, icon_url := none, weight := 25 }]

/-- `total_w = sum(int(p["weight"]) for p in prizes)` (line 1382). -/
def sumWeights (ps : List PrizeDict) : Int :=
  ps.foldr (fun p a => p.weight + a) 0

/-- `int.from_bytes(digest, "big")` (line 1375). -/
def bytesBE (bs : List Nat) : Nat :=
  bs.foldl (fun a b => a * 256 + b) 0

/-- The HMAC message `f"{uid}|{client_seed}|{nonce}|{cost}"` (line 1373). -/
def rngMsg (uid client_seed : String) (nonce cost : Int) : String :=
  uid ++ "|" ++ client_seed ++ "|" ++ toString nonce ++ "|" ++ toString cost

/-- `rng_int` (lines 1373–1375): HMAC-SHA256 digest of the message under the
server seed, read as a big-endian integer.  `hmacSha256` maps key and message
to the digest bytes. -/
def rngInt (hmacSha256 : String → String → List Nat)
    (server_seed uid client_seed : String) (nonce cost : Int) : Nat :=
  bytesBE (hmacSha256 server_seed (rngMsg uid client_seed nonce cost))

/-- The selection loop of `spin` (lines 1386–1393): walk the prizes
accumulating weights, returning the first prize whose cumulative weight
exceeds `pick`. -/
def chooseLoop (pick : Int) : Int → List PrizeDict → Option PrizeDict
  | _, [] => none
  | acc, p :: ps =>
    if pick < acc + p.weight then some p else chooseLoop pick (acc + p.weight) ps

/-- Lines 1385–1395: `pick = rng_int % total_w`, the loop, and the
`prizes[-1]` fallback. -/
def pickPrize (prizes : List PrizeDict) (pick : Int) : Option PrizeDict :=
  match chooseLoop pick 0 prizes with
  | some p => some p
  | none => prizes.getLast?

/-- The active-prize list `spin` draws from (lines 1378–1380): the stored
active prizes, or `DEFAULT_PRIZES` when there are none. -/
def effectivePrizes (st : ServerState) (case_id : Option Int) :
    List PrizeDict :=
  let prizes := fetch_active_prizes st case_id
  if prizes = [] then DEFAULT_PRIZES else prizes

/-- `inventory_sell` (server.py lines 1044–1111, `POST /inventory/sell`).
The first branch (line 1058) reads the unbound local `case_id` and raises;
the remainder of the body is kept to mirror the source. -/
def inventory_sell (cfg : Config) (sha256 : String → String) (fr : FairRand)
    (now : Int) (cleanup : Bool) (st0 : ServerState) (uid : String)
    (inv_id : Int) (idem_key : String) : Except PyErr (ServerState × RespVal) := do
  let st := get_or_create_user cfg sha256 fr st0 uid
  let _ ← require_not_banned st uid
  -- line 1058: `if case_id is not None:` — unbound local read
  let case_id ← readLocal case_id_local
  -- lines 1059–1076: resolve case -> authoritative bet cost (unreachable)
  let _cost ← (match case_id with
    | some cid =>
      match st.cases.find? (fun c => c.id == cid && c.is_active) with
      | some c => Except.ok c.price
      | none => Except.error (PyErr.httpError 404)
    | none => do
      -- line 1069 reads the unbound local `cost`
      let cost0 ← readLocal cost_local
      match (sortBy (fun a b => a.sort_order < b.sort_order ||
          (a.sort_order == b.sort_order && a.id ≤ b.id))
          (st.cases.filter (fun c => c.price == cost0 && c.is_active))).head? with
      | some c => Except.ok c.price
      | none => Except.error (PyErr.httpError 400))
  -- lines 1078–1082: idempotency replay
  if idem_key ≠ "" then
    match idem_get st uid idem_key with
    | some cached => return (st, cached)
    | none => pure ()
  -- lines 1084–1095: load the item under lock
  let item ← (match st.inventory.find?
      (fun i => i.id == inv_id && i.tg_user_id == uid) with
    | some i => Except.ok i
    | none => Except.error (PyErr.httpError 404))
  let prize_cost := item.prize_cost
  if item.is_locked then throw (PyErr.httpError 409)
  -- lines 1097–1103: delete, credit, ledger
  let st : ServerState := { st with inventory := st.inventory.filter (fun i =>
      ¬ (i.id == inv_id && i.tg_user_id == uid)) }
  let st := addBalance st uid prize_cost
  let bal ← fetchBalance st uid
  let st := ledger_add st uid prize_cost "inventory_sell"
      (some (toString inv_id)) now
  let resp := RespVal.sell
    { ok := true, inventory_id := inv_id, credited := prize_cost, balance := bal }
  let st := if idem_key ≠ "" then idem_put st uid idem_key resp now else st
  let st := if cleanup then cleanup_idempotency cfg now st else st
  return (st, resp)

/-- Lines 1487–1493 of `claim`: the spin is already settled — report the
current status and balance, cache, change nothing else. -/
def claim_settled (st : ServerState) (uid : String) (row : SpinRow)
    (idem_key : String) (now : Int) : Except PyErr (ServerState × RespVal) :=
  match fetchBalance st uid with
  | Except.error e => Except.error e
  | Except.ok bal =>
    let resp := RespVal.claimR
      { ok := true, status := row.status, balance := bal, credited := none }
    let st1 := if idem_key ≠ "" then idem_put st uid idem_key resp now else st
    Except.ok (st1, resp)

/-- Lines 1495–1508 of `claim`: sell the pending prize — credit the balance,
mark the spin sold, write the ledger row. -/
def claim_sell (cfg : Config) (now : Int) (cleanup : Bool) (st : ServerState)
    (uid spin_id : String) (row : SpinRow) (idem_key : String) :
    Except PyErr (ServerState × RespVal) :=
  let st := addBalance st uid row.prize_cost
  match fetchBalance st uid with
  | Except.error e => Except.error e
  | Except.ok bal =>
    let st1 : ServerState := { st with spins := st.spins.map (fun sp =>
        if sp.spin_id == spin_id then { sp with status := "sold" } else sp) }
    let st2 := ledger_add st1 uid row.prize_cost "spin_sell" (some spin_id) now
    let resp := RespVal.claimR
      { ok := true, status := "sold", balance := bal,
        credited := some row.prize_cost }
    let st3 := if idem_key ≠ "" then idem_put st2 uid idem_key resp now else st2
    let st4 := if cleanup then cleanup_idempotency cfg now st3 else st3
    Except.ok (st4, resp)

/-- Lines 1510–1524 of `claim`: keep the prize — insert it into the
inventory (the fresh id models the serial column) and mark the spin kept. -/
def claim_keep (cfg : Config) (now : Int) (cleanup : Bool) (st : ServerState)
    (uid spin_id : String) (row : SpinRow) (idem_key : String) :
    Except PyErr (ServerState × RespVal) :=
  let newId := (st.inventory.foldr (fun i a => max i.id a) 0) + 1
  let st1 : ServerState := { st with inventory := st.inventory ++
      [{ id := newId, tg_user_id := uid, prize_id := row.prize_id,
         prize_name := row.prize_name, prize_cost := row.prize_cost,
         is_locked := false, created_at := now }] }
  let st2 : ServerState := { st1 with spins := st1.spins.map (fun sp =>
      if sp.spin_id == spin_id then { sp with status := "kept" } else sp) }
  match fetchBalance st2 uid with
  | Except.error e => Except.error e
  | Except.ok bal =>
    let resp := RespVal.claimR
      { ok := true, status := "kept", balance := bal, credited := none }
    let st3 := if idem_key ≠ "" then idem_put st2 uid idem_key resp now else st2
    let st4 := if cleanup then cleanup_idempotency cfg now st3 else st3
    Except.ok (st4, resp)

/-- `claim` (server.py lines 1458–1524, `POST /claim`): user bootstrap and
ban check, idempotency replay, load the spin row under lock, then settle
(no-op report / sell / keep). -/
def claim (cfg : Config) (sha256 : String → String) (fr : FairRand)
    (now : Int) (cleanup : Bool) (st0 : ServerState)
    (uid spin_id action idem_key : String) :
    Except PyErr (ServerState × RespVal) :=
  let st := get_or_create_user cfg sha256 fr st0 uid
  match require_not_banned st uid with
  | Except.error e => Except.error e
  | Except.ok _ =>
    match (if idem_key ≠ "" then idem_get st uid idem_key else none) with
    | some cached => Except.ok (st, cached)
    | none =>
      match st.spins.find?
          (fun sp => sp.spin_id == spin_id && sp.tg_user_id == uid) with
      | none => Except.error (PyErr.httpError 404)
      | some row =>
        if row.status = "sold" ∨ row.status = "kept" then
          claim_settled st uid row idem_key now
        else if action = "sell" then
          claim_sell cfg now cleanup st uid spin_id row idem_key
        else
          claim_keep cfg now cleanup st uid spin_id row idem_key

/-- Lines 1364–1456 of `spin`, after the seeds have been read (and repaired
if they were missing): cooldown and funds checks, the provably-fair draw,
seed rotation, and persistence. -/
def spinCore (cfg : Config) (sha256 : String → String)
    (hmacSha256 : String → String → List Nat) (next_server_seed spin_id : String)
    (now : Int) (cleanup : Bool) (st : ServerState) (uid : String) (cost : Int)
    (case_id : Option Int) (idem_key : String) (balance nonce last_spin_at : Int)
    (client_seed server_seed server_seed_hash : String) :
    Except PyErr (ServerState × RespVal) :=
  if 0 < cfg.SPIN_COOLDOWN_SEC ∧ last_spin_at ≠ 0 ∧
      now - last_spin_at < cfg.SPIN_COOLDOWN_SEC then
    Except.error (PyErr.httpError 429)
  else if balance < cost then Except.error (PyErr.httpError 402)
  else
    let digest := hmacSha256 server_seed (rngMsg uid client_seed nonce cost)
    let prizes := effectivePrizes st case_id
    let total_w := sumWeights prizes
    if total_w ≤ 0 then Except.error (PyErr.httpError 500)
    else
      let pick : Int := (bytesBE digest : Int) % total_w
      match pickPrize prizes pick with
      | none => Except.error PyErr.nameError
      | some chosen =>
        let new_balance := balance - cost
        let st1 : ServerState := { st with users := updateUser st.users uid (fun v =>
            { v with balance := new_balance, nonce := nonce + 1,
                     last_spin_at := some now,
                     server_seed := some next_server_seed,
                     server_seed_hash := some (sha256 next_server_seed) }) }
        let st2 : ServerState := { st1 with spins := st1.spins ++
            [{ spin_id := spin_id, tg_user_id := uid, case_id := case_id,
               bet_cost := cost, prize_id := chosen.id,
               prize_name := chosen.name, prize_cost := chosen.cost,
               status := "pending", created_at := now, nonce := nonce,
               client_seed := client_seed, server_seed := server_seed,
               server_seed_hash := server_seed_hash, rng_bytes := digest }] }
        let st3 := ledger_add st2 uid (-cost) "spin_cost" (some spin_id) now
        let resp := RespVal.spinR
          { spin_id := spin_id, case_id := case_id, bet_cost := cost,
            id := chosen.id, name := chosen.name, icon_url := chosen.icon_url,
            cost := chosen.cost, balance := new_balance,
            fair_client_seed := client_seed, fair_nonce := nonce,
            fair_server_seed_hash := server_seed_hash,
            fair_server_seed := server_seed, fair_rng_bytes := digest,
            fair_next_server_seed_hash := sha256 next_server_seed }
        let st4 := if idem_key ≠ "" then idem_put st3 uid idem_key resp now else st3
        let st5 := if cleanup then cleanup_idempotency cfg now st4 else st4
        Except.ok (st5, resp)

/-- `spin` (server.py lines 1300–1456, `POST /spin`): request normalization
(`int(req.cost or 25)`), user bootstrap and ban check, idempotency replay,
pending-claim gate, read the user row under lock, repair missing seeds
re-reading afterwards, then `spinCore`.  All nondeterministic inputs are
parameters: `fr` (fresh fairness seeds), `next_server_seed` (seed rotation),
`spin_id` (`uuid.uuid4()`), `now`, and `cleanup` (`random.random() < 0.02`). -/
def spin (cfg : Config) (sha256 : String → String)
    (hmacSha256 : String → String → List Nat) (fr : FairRand)
    (next_server_seed spin_id : String) (now : Int) (cleanup : Bool)
    (st0 : ServerState) (uid : String) (req_cost : Int)
    (req_case_id : Option Int) (idem_key : String) :
    Except PyErr (ServerState × RespVal) :=
  let case_id := req_case_id
  let cost : Int := if req_cost == 0 then 25 else req_cost
  let st := get_or_create_user cfg sha256 fr st0 uid
  match require_not_banned st uid with
  | Except.error e => Except.error e
  | Except.ok _ =>
    match (if idem_key ≠ "" then idem_get st uid idem_key else none) with
    | some cached => Except.ok (st, cached)
    | none =>
      if cfg.REQUIRE_CLAIM_BEFORE_NEXT_SPIN ∧ (st.spins.find? (fun sp =>
          sp.tg_user_id == uid && sp.status == "pending")).isSome then
        Except.error (PyErr.httpError 409)
      else
        match findUser st.users uid with
        | none => Except.error (PyErr.httpError 500)
        | some u =>
          if pyStrip (u.client_seed.getD "") = "" ∨ pyStrip (u.server_seed.getD "") = "" ∨
              pyStrip (u.server_seed_hash.getD "") = "" then
            let st1 := ensure_user_fairness sha256 fr st uid
            match findUser st1.users uid with
            | none => Except.error PyErr.nameError
            | some u1 =>
              spinCore cfg sha256 hmacSha256 next_server_seed spin_id now cleanup
                st1 uid cost case_id idem_key u.balance u1.nonce
                (u.last_spin_at.getD 0) (pyStrip (u1.client_seed.getD ""))
                (pyStrip (u1.server_seed.getD "")) (pyStrip (u1.server_seed_hash.getD ""))
          else
            spinCore cfg sha256 hmacSha256 next_server_seed spin_id now cleanup
              st uid cost case_id idem_key u.balance u.nonce
              (u.last_spin_at.getD 0) (pyStrip (u.client_seed.getD ""))
              (pyStrip (u.server_seed.getD "")) (pyStrip (u.server_seed_hash.getD ""))

/-! Concrete fixtures for witnesses.  `shaW`/`hmacW` are stand-in
deterministic functions in the place of the uninterpreted hash parameters. -/

def cfgW : Config :=
  { START_BALANCE := 200, SPIN_COOLDOWN_SEC := 2,
    REQUIRE_CLAIM_BEFORE_NEXT_SPIN := true, IDEMPOTENCY_TTL_SEC := 86400 }

def shaW : String → String := fun s => "#" ++ s

def hmacW : String → String → List Nat := fun _ _ => [1, 2]

def frW : FairRand := { clientSeed := "fresh-client", serverSeed := "fresh-server" }

def userW : UserRow :=
  { tg_user_id := "42", balance := 100, banned := false, nonce := 3,
    client_seed := some "cs", server_seed := some "ss",
    server_seed_hash := some "sh", last_spin_at := none }

def invW : InvRow :=
  { id := 7, tg_user_id := "42", prize_id := 1, prize_name := "bear",
    prize_cost := 25, is_locked := false, created_at := 0 }

def spinPendingW : SpinRow :=
  { spin_id := "sp1", tg_user_id := "42", case_id := none, bet_cost := 25,
    prize_id := 2, prize_name := "cake", prize_cost := 30, status := "pending",
    created_at := 0, nonce := 1, client_seed := "cs", server_seed := "ss",
    server_seed_hash := "sh", rng_bytes := [] }

def stW : ServerState :=
  { users := [userW], prizes := [], cases := [], case_prizes := [],
    spins := [spinPendingW], inventory := [invW], ledger := [], idem := [] }

def stSoldW : ServerState :=
  { stW with spins := [{ spinPendingW with status := "sold" }] }

def stBannedW : ServerState :=
  { stW with users := [{ userW with banned := true }] }

end Roulette

namespace Lottery

/-! ## Basic lemmas about `finalize` -/

theorem finalize_of_drawn {draw : Nat → Nat} {now : Nat} {s : LotteryState}
    {r : Round} (hs : s.round = some r) (hd : r.drawn_at.isSome = true) :
    finalize draw now s = (false, s) := by
  unfold finalize
  rw [hs]
  simp [hd]

theorem finalize_of_open {draw : Nat → Nat} {now : Nat} {s : LotteryState}
    {r : Round} (hs : s.round = some r) (hl : now < r.period_end) :
    finalize draw now s = (false, s) := by
  unfold finalize
  rw [hs]
  by_cases hd : r.drawn_at.isSome
  · simp [hd]
  · simp [hd, hl]

theorem finalize_runs {draw : Nat → Nat} {now : Nat} {s : LotteryState}
    {r : Round} (hs : s.round = some r) (hd : r.drawn_at = none)
    (he : r.period_end ≤ now) :
    (finalize draw now s).1 = true ∧
      ∃ r1, ((finalize draw now s).2).round = some r1 ∧ r1.drawn_at = some now := by
  have hnl : ¬ now < r.period_end := Nat.not_lt.mpr he
  unfold finalize
  rw [hs]
  by_cases hz : r.total_tickets = 0 ∨ r.total_spent = 0
  · simp [hd, hnl, hz, closeEmpty]
  · simp only [hd, Option.isSome_none, Bool.false_eq_true, if_false, hnl, if_true, hz]
    cases hf : s.entries.find?
        (fun x => x.start_no ≤ draw r.total_tickets && draw r.total_tickets ≤ x.end_no) with
    | none => simp [closeEmpty]
    | some e => simp

theorem finalize_empty {draw : Nat → Nat} {now : Nat} {s : LotteryState}
    {r : Round} (hs : s.round = some r) (hd : r.drawn_at = none)
    (he : r.period_end ≤ now) (ht : r.total_tickets = 0) :
    finalize draw now s = (true, closeEmpty r now s) := by
  have hnl : ¬ now < r.period_end := Nat.not_lt.mpr he
  unfold finalize
  rw [hs]
  simp [hd, hnl, ht]

theorem finalize_payout {draw : Nat → Nat} {now : Nat} {s : LotteryState}
    {r : Round} {e : Entry} (hs : s.round = some r) (hd : r.drawn_at = none)
    (he : r.period_end ≤ now) (ht : 0 < r.total_tickets) (hsp : 0 < r.total_spent)
    (hf : s.entries.find?
        (fun x => x.start_no ≤ draw r.total_tickets && draw r.total_tickets ≤ x.end_no) =
      some e) :
    finalize draw now s =
      (true,
        { s with
          round := some { r with
            winner_user_id := some e.user_id
            winner_ticket_no := some (draw r.total_tickets)
            prize_amount := some (r.total_spent * 8 / 10)
            commission_amount := some (r.total_spent - r.total_spent * 8 / 10)
            drawn_at := some now }
          house := s.house + (r.total_spent - r.total_spent * 8 / 10)
          log := WalletOp.credit e.user_id (r.total_spent * 8 / 10) :: s.log }) := by
  have hnl : ¬ now < r.period_end := Nat.not_lt.mpr he
  have hz : ¬ (r.total_tickets = 0 ∨ r.total_spent = 0) := by omega
  unfold finalize
  rw [hs]
  simp [hd, hnl, hz, hf]

end Lottery

namespace Lottery

/-! ## Claim theorems for the lottery core -/

/-- Claim C1: when two finalize calls race on the same ended round (the round
row lock serializes them, so the race is the two calls in sequence), exactly
one of them credits the winner's wallet and the track's house account; the
other observes `drawn_at` already set and performs no wallet operations and no
state change — payout happens exactly once per round. -/
theorem finalize_race_pays_out_exactly_once (draw draw2 : Nat → Nat)
    (now now2 : Nat) (s : LotteryState) (r : Round) (e : Entry)
    (hs : s.round = some r) (hd : r.drawn_at = none) (he : r.period_end ≤ now)
    (ht : 0 < r.total_tickets) (hsp : 0 < r.total_spent)
    (hf : s.entries.find?
        (fun x => x.start_no ≤ draw r.total_tickets && draw r.total_tickets ≤ x.end_no) =
      some e) :
    (finalize draw now s).1 = true ∧
    ((finalize draw now s).2).log =
      WalletOp.credit e.user_id (r.total_spent * 8 / 10) :: s.log ∧
    ((finalize draw now s).2).house =
      s.house + (r.total_spent - r.total_spent * 8 / 10) ∧
    (∃ r1, ((finalize draw now s).2).round = some r1 ∧ r1.drawn_at = some now) ∧
    finalize draw2 now2 (finalize draw now s).2 = (false, (finalize draw now s).2) := by
  have h := finalize_payout hs hd he ht hsp hf
  rw [h]
  exact ⟨rfl, rfl, rfl, ⟨_, rfl, rfl⟩, finalize_of_drawn rfl rfl⟩

/-- Witness for C1, on the §8 example: the first finalize pays user 2 a prize
of 8 and the house 2; the second is a no-op. -/
theorem finalize_race_pays_out_exactly_once_witness :
    (finalize (fun _ => 5) 600 exState).1 = true ∧
    ((finalize (fun _ => 5) 600 exState).2).log =
      WalletOp.credit 2 8 :: exState.log ∧
    ((finalize (fun _ => 5) 600 exState).2).house = 2 ∧
    (∃ r1, ((finalize (fun _ => 5) 600 exState).2).round = some r1 ∧
      r1.drawn_at = some 600) ∧
    finalize (fun _ => 3) 700 (finalize (fun _ => 5) 600 exState).2 =
      (false, (finalize (fun _ => 5) 600 exState).2) :=
  finalize_race_pays_out_exactly_once (fun _ => 5) (fun _ => 3) 600 700 exState
    exRound exEntryB rfl rfl (by decide) (by decide) (by decide) (by decide)

/-- Claim C2: `finalize` is idempotent — on an ended, undrawn round the first
call reports `true` and sets `drawn_at`; any second call returns `false` and
changes nothing, so `drawn_at` is set exactly once and the draw fields are
identical after both calls. -/
theorem finalize_idempotent (draw draw2 : Nat → Nat) (now now2 : Nat)
    (s : LotteryState) (r : Round)
    (hs : s.round = some r) (hd : r.drawn_at = none) (he : r.period_end ≤ now) :
    (finalize draw now s).1 = true ∧
    (∃ r1, ((finalize draw now s).2).round = some r1 ∧ r1.drawn_at = some now) ∧
    finalize draw2 now2 (finalize draw now s).2 = (false, (finalize draw now s).2) := by
  obtain ⟨h1, r1, hr1, hdr⟩ := @finalize_runs draw now s r hs hd he
  refine ⟨h1, ⟨r1, hr1, hdr⟩, ?_⟩
  exact finalize_of_drawn hr1 (by simp [hdr])

/-- Witness for C2 on the §8 example round. -/
theorem finalize_idempotent_witness :
    (finalize (fun _ => 5) 600 exState).1 = true ∧
    (∃ r1, ((finalize (fun _ => 5) 600 exState).2).round = some r1 ∧
      r1.drawn_at = some 600) ∧
    finalize (fun _ => 3) 700 (finalize (fun _ => 5) 600 exState).2 =
      (false, (finalize (fun _ => 5) 600 exState).2) :=
  finalize_idempotent (fun _ => 5) (fun _ => 3) 600 700 exState exRound
    rfl rfl (by decide)

/-- Claim C4: for a round with tickets sold, finalize computes
`prize = floor(total_spent * 0.8)` and `commission = total_spent - prize`, so
`prize + commission = total_spent` exactly, and the winner is the buyer whose
entry range contains the winning ticket number. -/
theorem finalize_prize_commission_split (draw : Nat → Nat) (now : Nat)
    (s : LotteryState) (r : Round) (e : Entry)
    (hs : s.round = some r) (hd : r.drawn_at = none) (he : r.period_end ≤ now)
    (ht : 0 < r.total_tickets) (hsp : 0 < r.total_spent)
    (hf : s.entries.find?
        (fun x => x.start_no ≤ draw r.total_tickets && draw r.total_tickets ≤ x.end_no) =
      some e) :
    ∃ r1, ((finalize draw now s).2).round = some r1 ∧
      r1.prize_amount = some (r.total_spent * 8 / 10) ∧
      r1.commission_amount = some (r.total_spent - r.total_spent * 8 / 10) ∧
      r.total_spent * 8 / 10 + (r.total_spent - r.total_spent * 8 / 10) =
        r.total_spent ∧
      r1.winner_user_id = some e.user_id ∧
      r1.winner_ticket_no = some (draw r.total_tickets) ∧
      e.start_no ≤ draw r.total_tickets ∧ draw r.total_tickets ≤ e.end_no := by
  have h := finalize_payout hs hd he ht hsp hf
  rw [h]
  have hrange : e.start_no ≤ draw r.total_tickets ∧ draw r.total_tickets ≤ e.end_no := by
    have := List.find?_some hf
    simpa using this
  exact ⟨_, rfl, rfl, rfl, by omega, rfl, rfl, hrange.1, hrange.2⟩

/-- Witness for C4: the §8 example — `total_spent = 10`, winning number 5
falls in user 2's range `[4,10]`, so `prize = 8`, `commission = 2`, and the
winner is user 2. -/
theorem finalize_prize_commission_split_witness :
    ∃ r1, ((finalize (fun _ => 5) 600 exState).2).round = some r1 ∧
      r1.prize_amount = some 8 ∧
      r1.commission_amount = some 2 ∧
      8 + 2 = 10 ∧
      r1.winner_user_id = some 2 ∧
      r1.winner_ticket_no = some 5 ∧
      4 ≤ 5 ∧ 5 ≤ 10 :=
  finalize_prize_commission_split (fun _ => 5) 600 exState exRound exEntryB
    rfl rfl (by decide) (by decide) (by decide) (by decide)

/-- Claim C6: finalizing an ended round with no tickets sold sets `drawn_at`,
zero prize and commission, no winner, returns `true`, and performs no wallet
debit or credit (the wallet-call log, the house accumulator and the entries
are untouched). -/
theorem finalize_empty_round_no_wallet_ops (draw : Nat → Nat) (now : Nat)
    (s : LotteryState) (r : Round)
    (hs : s.round = some r) (hd : r.drawn_at = none) (he : r.period_end ≤ now)
    (ht : r.total_tickets = 0) :
    (finalize draw now s).1 = true ∧
    ((finalize draw now s).2).round =
      some { r with drawn_at := some now, prize_amount := some 0,
                    commission_amount := some 0, winner_user_id := none } ∧
    ((finalize draw now s).2).log = s.log ∧
    ((finalize draw now s).2).house = s.house ∧
    ((finalize draw now s).2).entries = s.entries := by
  rw [finalize_empty hs hd he ht]
  exact ⟨rfl, rfl, rfl, rfl, rfl⟩

/-- Witness for C6: the §8 example empty round, finalized at its close. -/
theorem finalize_empty_round_no_wallet_ops_witness :
    (finalize (fun _ => 1) 600 exEmptyState).1 = true ∧
    ((finalize (fun _ => 1) 600 exEmptyState).2).round =
      some { exEmptyRound with drawn_at := some 600, prize_amount := some 0,
                               commission_amount := some 0, winner_user_id := none } ∧
    ((finalize (fun _ => 1) 600 exEmptyState).2).log = exEmptyState.log ∧
    ((finalize (fun _ => 1) 600 exEmptyState).2).house = exEmptyState.house ∧
    ((finalize (fun _ => 1) 600 exEmptyState).2).entries = exEmptyState.entries :=
  finalize_empty_round_no_wallet_ops (fun _ => 1) 600 exEmptyState exEmptyRound
    rfl rfl (by decide) (by decide)

/-- Claim C7: `finalize` called before `period_end` is a no-op returning
`false`: the round stays exactly as it was (still open, `drawn_at` still
null), and no Round, Entry, House, or wallet state changes. -/
theorem finalize_before_period_end_noop (draw : Nat → Nat) (now : Nat)
    (s : LotteryState) (r : Round)
    (hs : s.round = some r) (hl : now < r.period_end) :
    finalize draw now s = (false, s) :=
  finalize_of_open hs hl

/-- Witness for C7: finalizing the §8 example round at time 300 (before its
close at 600) changes nothing. -/
theorem finalize_before_period_end_noop_witness :
    finalize (fun _ => 5) 300 exState = (false, exState) :=
  finalize_before_period_end_noop (fun _ => 5) 300 exState exRound rfl (by decide)

end Lottery

namespace Lottery

/-! ## Entry-partition and money-invariant preservation -/

theorem sumQty_nil : sumQty [] = 0 := rfl

theorem sumQty_cons (e : Entry) (es : List Entry) :
    sumQty (e :: es) = e.qty + sumQty es := rfl

theorem sumQty_append (l1 l2 : List Entry) :
    sumQty (l1 ++ l2) = sumQty l1 + sumQty l2 := by
  induction l1 with
  | nil => simp [sumQty_nil]
  | cons x xs ih =>
    simp only [List.cons_append, sumQty_cons, ih]
    omega

theorem entriesChainFrom_append (e : Entry) :
    ∀ (es : List Entry) (k : Nat), entriesChainFrom k es = true →
      e.start_no = k + sumQty es → e.end_no + 1 = e.start_no + e.qty →
      entriesChainFrom k (es ++ [e]) = true := by
  intro es
  induction es with
  | nil =>
    intro k h hstart hend
    simp only [sumQty_nil] at hstart
    have h1 : e.start_no = k := by omega
    simp [entriesChainFrom, h1, hend]
  | cons x xs ih =>
    intro k h hstart hend
    simp only [entriesChainFrom, Bool.and_eq_true, beq_iff_eq] at h
    obtain ⟨⟨h1, h2⟩, h3⟩ := h
    simp only [List.cons_append, entriesChainFrom, Bool.and_eq_true, beq_iff_eq]
    refine ⟨⟨h1, h2⟩, ih (x.end_no + 1) h3 ?_ hend⟩
    rw [sumQty_cons] at hstart
    omega

theorem entriesPartition_append (es : List Entry) (tt u q now : Nat)
    (h : entriesPartition es tt = true) :
    entriesPartition
      (es ++ [{ user_id := u, qty := q, start_no := tt + 1,
                end_no := tt + q, created_at := now }]) (tt + q) = true := by
  simp only [entriesPartition, Bool.and_eq_true, beq_iff_eq] at h ⊢
  obtain ⟨hchain, hsum⟩ := h
  refine ⟨entriesChainFrom_append _ es 1 hchain (by simp; omega) (by simp; omega), ?_⟩
  rw [sumQty_append, hsum, sumQty_cons, sumQty_nil]
  simp

/-- Frame property of `finalize` when the round row is absent: nothing at all
happens. -/
theorem finalize_frame_none {draw : Nat → Nat} {now : Nat} {s : LotteryState}
    (hs : s.round = none) : finalize draw now s = (false, s) := by
  unfold finalize
  rw [hs]

theorem finalize_zero {draw : Nat → Nat} {now : Nat} {s : LotteryState}
    {r : Round} (hs : s.round = some r) (hd : r.drawn_at = none)
    (he : r.period_end ≤ now) (hz : r.total_tickets = 0 ∨ r.total_spent = 0) :
    finalize draw now s = (true, closeEmpty r now s) := by
  have hnl : ¬ now < r.period_end := Nat.not_lt.mpr he
  unfold finalize
  rw [hs]
  simp [hd, hnl, hz]

theorem finalize_no_match {draw : Nat → Nat} {now : Nat} {s : LotteryState}
    {r : Round} (hs : s.round = some r) (hd : r.drawn_at = none)
    (he : r.period_end ≤ now) (hz : ¬ (r.total_tickets = 0 ∨ r.total_spent = 0))
    (hf : s.entries.find?
        (fun x => x.start_no ≤ draw r.total_tickets && draw r.total_tickets ≤ x.end_no) =
      none) :
    finalize draw now s = (true, closeEmpty r now s) := by
  have hnl : ¬ now < r.period_end := Nat.not_lt.mpr he
  unfold finalize
  rw [hs]
  simp [hd, hnl, hz, hf]

/-- Frame property of `finalize`: it never touches the entries and never
changes the round's aggregate counters or its copied price. -/
theorem finalize_frame_some {draw : Nat → Nat} {now : Nat} {s : LotteryState}
    {r : Round} (hs : s.round = some r) :
    ((finalize draw now s).2).entries = s.entries ∧
    ∃ r1, ((finalize draw now s).2).round = some r1 ∧
      r1.total_tickets = r.total_tickets ∧ r1.total_spent = r.total_spent ∧
      r1.ticket_price = r.ticket_price := by
  rcases hdrawn : r.drawn_at with _ | t
  · by_cases hl : now < r.period_end
    · rw [finalize_of_open hs hl]
      exact ⟨rfl, r, hs, rfl, rfl, rfl⟩
    · have he : r.period_end ≤ now := Nat.not_lt.mp hl
      by_cases hz : r.total_tickets = 0 ∨ r.total_spent = 0
      · rw [finalize_zero hs hdrawn he hz]
        exact ⟨rfl, _, rfl, rfl, rfl, rfl⟩
      · cases hf : s.entries.find?
            (fun x => x.start_no ≤ draw r.total_tickets && draw r.total_tickets ≤ x.end_no) with
        | none =>
          rw [finalize_no_match hs hdrawn he hz hf]
          exact ⟨rfl, _, rfl, rfl, rfl, rfl⟩
        | some e =>
          rw [finalize_payout hs hdrawn he (by omega) (by omega) hf]
          exact ⟨rfl, _, rfl, rfl, rfl, rfl⟩
  · rw [finalize_of_drawn hs (by simp [hdrawn])]
    exact ⟨rfl, r, hs, rfl, rfl, rfl⟩

end Lottery

namespace Lottery

/-! ## Invariant preservation -/

theorem entriesInv_none {s : LotteryState} (hs : s.round = none) :
    EntriesInv s ↔ s.entries = [] := by
  unfold EntriesInv
  rw [hs]

theorem entriesInv_some {s : LotteryState} {r : Round} (hs : s.round = some r) :
    EntriesInv s ↔ entriesPartition s.entries r.total_tickets = true := by
  unfold EntriesInv
  rw [hs]

theorem ensureRound_of_some {tr : Track} {ps : Nat} {s : LotteryState} {r : Round}
    (hs : s.round = some r) : ensureRound tr ps s = s := by
  unfold ensureRound
  rw [hs]

theorem ensureRound_of_none {tr : Track} {ps : Nat} {s : LotteryState}
    (hs : s.round = none) :
    ensureRound tr ps s = { s with round := some (newRound tr ps) } := by
  unfold ensureRound
  rw [hs]

theorem ensureRound_entriesInv (tr : Track) (ps : Nat) (s : LotteryState)
    (h : EntriesInv s) : EntriesInv (ensureRound tr ps s) := by
  cases hs : s.round with
  | some r => rw [ensureRound_of_some hs]; exact h
  | none =>
    rw [ensureRound_of_none hs]
    rw [entriesInv_some rfl]
    show entriesPartition s.entries (newRound tr ps).total_tickets = true
    rw [(entriesInv_none hs).mp h]
    rfl

theorem ensureRound_moneyInv (tr : Track) (ps : Nat) (s : LotteryState)
    (h : MoneyInv s) : MoneyInv (ensureRound tr ps s) := by
  cases hs : s.round with
  | some r => rw [ensureRound_of_some hs]; exact h
  | none =>
    rw [ensureRound_of_none hs]
    intro r2 hr2
    have : some (newRound tr ps) = some r2 := hr2
    injection this with h2
    subst h2
    simp [newRound]

theorem finalize_entriesInv (draw : Nat → Nat) (now : Nat) (s : LotteryState)
    (h : EntriesInv s) : EntriesInv ((finalize draw now s).2) := by
  cases hs : s.round with
  | none => rw [finalize_frame_none hs]; exact h
  | some r =>
    obtain ⟨hent, r1, hr1, htt, -, -⟩ :=
      @finalize_frame_some draw now s r hs
    rw [entriesInv_some hr1, hent, htt]
    exact (entriesInv_some hs).mp h

theorem finalize_moneyInv (draw : Nat → Nat) (now : Nat) (s : LotteryState)
    (h : MoneyInv s) : MoneyInv ((finalize draw now s).2) := by
  cases hs : s.round with
  | none => rw [finalize_frame_none hs]; exact h
  | some r =>
    obtain ⟨-, r1, hr1, htt, hts, hpr⟩ :=
      @finalize_frame_some draw now s r hs
    intro r2 hr2
    rw [hr1] at hr2
    injection hr2 with h2
    subst h2
    rw [htt, hts, hpr]
    exact h r hs

theorem buyCore_of_none {u q : Nat} {ok : Bool} {now : Nat} {s2 : LotteryState}
    (hs : s2.round = none) : buyCore u q ok now s2 = (s2, .roundMissing) := by
  unfold buyCore
  rw [hs]

theorem buyCore_of_closed {u q : Nat} {ok : Bool} {now : Nat} {s2 : LotteryState}
    {r : Round} (hs : s2.round = some r) (hpe : r.period_end ≤ now) :
    buyCore u q ok now s2 = (s2, .roundNotBuyable) := by
  unfold buyCore
  rw [hs]
  simp [hpe]

theorem buyCore_of_nofunds {u q : Nat} {now : Nat} {s2 : LotteryState}
    {r : Round} (hs : s2.round = some r) (hpe : ¬ r.period_end ≤ now) :
    buyCore u q false now s2 = (s2, .insufficientFunds) := by
  unfold buyCore
  rw [hs]
  simp [hpe]

theorem buyCore_of_ok {u q : Nat} {now : Nat} {s2 : LotteryState}
    {r : Round} (hs : s2.round = some r) (hpe : ¬ r.period_end ≤ now) :
    buyCore u q true now s2 =
      ({ s2 with
          round := some { r with
            total_tickets := r.total_tickets + q
            total_spent := r.total_spent + r.ticket_price * q }
          entries := s2.entries ++
            [{ user_id := u, qty := q, start_no := r.total_tickets + 1,
               end_no := r.total_tickets + q, created_at := now }]
          log := WalletOp.debit u (r.ticket_price * q) :: s2.log },
        .ok (myTickets u (s2.entries ++
          [{ user_id := u, qty := q, start_no := r.total_tickets + 1,
             end_no := r.total_tickets + q, created_at := now }]))) := by
  unfold buyCore
  rw [hs]
  simp [hpe]

theorem buyCore_entriesInv (u q : Nat) (ok : Bool) (now : Nat)
    (s2 : LotteryState) (h : EntriesInv s2) :
    EntriesInv ((buyCore u q ok now s2).1) := by
  cases hs : s2.round with
  | none => rw [buyCore_of_none hs]; exact h
  | some r =>
    by_cases hpe : r.period_end ≤ now
    · rw [buyCore_of_closed hs hpe]; exact h
    · cases ok with
      | false => rw [buyCore_of_nofunds hs hpe]; exact h
      | true =>
        rw [buyCore_of_ok hs hpe]
        rw [entriesInv_some rfl]
        show entriesPartition
          (s2.entries ++
            [{ user_id := u, qty := q, start_no := r.total_tickets + 1,
               end_no := r.total_tickets + q, created_at := now }])
          (r.total_tickets + q) = true
        exact entriesPartition_append _ _ u q now ((entriesInv_some hs).mp h)

theorem buyCore_moneyInv (u q : Nat) (ok : Bool) (now : Nat)
    (s2 : LotteryState) (h : MoneyInv s2) :
    MoneyInv ((buyCore u q ok now s2).1) := by
  cases hs : s2.round with
  | none => rw [buyCore_of_none hs]; exact h
  | some r =>
    by_cases hpe : r.period_end ≤ now
    · rw [buyCore_of_closed hs hpe]; exact h
    · cases ok with
      | false => rw [buyCore_of_nofunds hs hpe]; exact h
      | true =>
        rw [buyCore_of_ok hs hpe]
        intro r2 hr2
        injection hr2 with h2
        subst h2
        have := h r hs
        show r.total_spent + r.ticket_price * q = (r.total_tickets + q) * r.ticket_price
        rw [this]
        ring

theorem buy_entriesInv (tr : Track) (u q : Nat) (ok : Bool) (draw : Nat → Nat)
    (now : Nat) (s : LotteryState) (h : EntriesInv s) :
    EntriesInv ((buy tr u q ok draw now s).1) := by
  unfold buy
  by_cases hq : q < 1 ∨ tr.max_qty_per_purchase < q
  · rw [if_pos hq]; exact h
  · rw [if_neg hq]
    exact buyCore_entriesInv _ _ _ _ _
      (ensureRound_entriesInv _ _ _ (finalize_entriesInv _ _ _ h))

theorem buy_moneyInv (tr : Track) (u q : Nat) (ok : Bool) (draw : Nat → Nat)
    (now : Nat) (s : LotteryState) (h : MoneyInv s) :
    MoneyInv ((buy tr u q ok draw now s).1) := by
  unfold buy
  by_cases hq : q < 1 ∨ tr.max_qty_per_purchase < q
  · rw [if_pos hq]; exact h
  · rw [if_neg hq]
    exact buyCore_moneyInv _ _ _ _ _
      (ensureRound_moneyInv _ _ _ (finalize_moneyInv _ _ _ h))

end Lottery

namespace Lottery

theorem applyOp_moneyInv (tr : Track) (draw : Nat → Nat) (s : LotteryState)
    (op : Op) (h : MoneyInv s) : MoneyInv (applyOp tr draw s op) := by
  cases op with
  | opEnsure ps => exact ensureRound_moneyInv tr ps s h
  | opBuy u q ok now => exact buy_moneyInv tr u q ok draw now s h
  | opFinalize now => exact finalize_moneyInv draw now s h

theorem applyOps_moneyInv (tr : Track) (draw : Nat → Nat) :
    ∀ (ops : List Op) (s : LotteryState), MoneyInv s →
      MoneyInv (applyOps tr draw s ops) := by
  intro ops
  induction ops with
  | nil => intro s h; exact h
  | cons op rest ih =>
    intro s h
    exact ih _ (applyOp_moneyInv tr draw s op h)

theorem buySeq_entriesInv (tr : Track) (draw : Nat → Nat) :
    ∀ (reqs : List (Nat × Nat × Bool × Nat)) (s : LotteryState), EntriesInv s →
      EntriesInv (buySeq tr draw s reqs) := by
  intro reqs
  induction reqs with
  | nil => intro s h; exact h
  | cons req rest ih =>
    intro s h
    obtain ⟨u, q, ok, now⟩ := req
    exact ih _ (buy_entriesInv tr u q ok draw now s h)

/-- Claim C3: for every sequence of `buy` calls against one round (concurrent
buys are serialized by the round's row lock), the Entries' `[start_no,
end_no]` ranges stay gap-free, non-overlapping, start at 1, and partition
`[1, total_tickets]` exactly in purchase order; moreover each successful buy
appends its Entry with `start_no` equal to the previous `total_tickets + 1`. -/
theorem buy_entries_partition_round (tr : Track) (draw : Nat → Nat) :
    (∀ (reqs : List (Nat × Nat × Bool × Nat)) (s : LotteryState),
      EntriesInv s → EntriesInv (buySeq tr draw s reqs)) ∧
    (∀ (s : LotteryState) (r : Round) (u q now : Nat),
      s.round = some r → now < r.period_end → 1 ≤ q →
      q ≤ tr.max_qty_per_purchase →
      ((buy tr u q true draw now s).1).entries =
        s.entries ++
          [{ user_id := u, qty := q, start_no := r.total_tickets + 1,
             end_no := r.total_tickets + q, created_at := now }]) := by
  constructor
  · exact buySeq_entriesInv tr draw
  · intro s r u q now hs hl hq1 hq2
    have hq : ¬ (q < 1 ∨ tr.max_qty_per_purchase < q) := by omega
    unfold buy
    rw [if_neg hq, finalize_of_open hs hl, ensureRound_of_some hs,
      buyCore_of_ok hs (by omega)]

/-- Witness for C3: from the empty store, user 1 buys 3 tickets and user 2
buys 7 in the window `[0, 600)`; the resulting entries partition `[1, 10]`,
and the second buy's entry starts at the first buy's `total_tickets + 1`. -/
theorem buy_entries_partition_round_witness :
    EntriesInv (buySeq exTrack (fun _ => 5) initState
      [(1, 3, true, 10), (2, 7, true, 20)]) ∧
    ((buy exTrack 1 3 true (fun _ => 5) 10
        { round := some (newRound exTrack 0), entries := [], house := 0,
          log := [] }).1).entries =
      [] ++ [{ user_id := 1, qty := 3, start_no := 1, end_no := 3,
               created_at := 10 }] :=
  ⟨(buy_entries_partition_round exTrack (fun _ => 5)).1
      [(1, 3, true, 10), (2, 7, true, 20)] initState rfl,
    (buy_entries_partition_round exTrack (fun _ => 5)).2
      { round := some (newRound exTrack 0), entries := [], house := 0, log := [] }
      (newRound exTrack 0) 1 3 10 rfl (by decide) (by decide) (by decide)⟩

/-- Claim C5: after every operation of the core (lazy round creation, every
buy, finalize), every existing Round row satisfies
`total_spent = total_tickets * ticket_price`, with `ticket_price` the price
copied into the row at round creation. -/
theorem round_money_invariant (tr : Track) (draw : Nat → Nat)
    (ops : List Op) (s : LotteryState) (h : MoneyInv s) :
    MoneyInv (applyOps tr draw s ops) :=
  applyOps_moneyInv tr draw ops s h

/-- Witness for C5: a concrete run — create the round, two buys, finalize. -/
theorem round_money_invariant_witness :
    MoneyInv (applyOps exTrack (fun _ => 5) initState
      [Op.opEnsure 0, Op.opBuy 1 3 true 10, Op.opBuy 2 7 true 20,
       Op.opFinalize 600]) :=
  round_money_invariant exTrack (fun _ => 5)
    [Op.opEnsure 0, Op.opBuy 1 3 true 10, Op.opBuy 2 7 true 20,
     Op.opFinalize 600] initState (fun _ hr => nomatch hr)

end Lottery

namespace Roulette

/-! ## Lemmas about the embedded helpers -/

theorem find_map_pres {α : Type} (p : α → Bool) (g : α → α)
    (hg : ∀ x, p (g x) = p x) :
    ∀ l : List α, List.find? p (l.map g) = (List.find? p l).map g := by
  intro l
  induction l with
  | nil => rfl
  | cons x xs ih =>
    by_cases hx : p x = true
    · simp [List.find?_cons, hg, hx]
    · simp only [List.map_cons, List.find?_cons, hg x, hx]
      simpa using ih

theorem fairRepair_tg (sha256 : String → String) (fr : FairRand) (u : UserRow) :
    (fairRepair sha256 fr u).tg_user_id = u.tg_user_id := by
  unfold fairRepair
  by_cases h1 : strBlank u.client_seed <;>
    by_cases h2 : strBlank u.server_seed <;>
      by_cases h3 : strBlank u.server_seed_hash <;>
        simp [h1, h2, h3]

theorem fairRepair_balance (sha256 : String → String) (fr : FairRand)
    (u : UserRow) : (fairRepair sha256 fr u).balance = u.balance := by
  unfold fairRepair
  by_cases h1 : strBlank u.client_seed <;>
    by_cases h2 : strBlank u.server_seed <;>
      by_cases h3 : strBlank u.server_seed_hash <;>
        simp [h1, h2, h3]

theorem fairRepair_banned (sha256 : String → String) (fr : FairRand)
    (u : UserRow) : (fairRepair sha256 fr u).banned = u.banned := by
  unfold fairRepair
  by_cases h1 : strBlank u.client_seed <;>
    by_cases h2 : strBlank u.server_seed <;>
      by_cases h3 : strBlank u.server_seed_hash <;>
        simp [h1, h2, h3]

theorem fairRepair_nonce (sha256 : String → String) (fr : FairRand)
    (u : UserRow) : (fairRepair sha256 fr u).nonce = u.nonce := by
  unfold fairRepair
  by_cases h1 : strBlank u.client_seed <;>
    by_cases h2 : strBlank u.server_seed <;>
      by_cases h3 : strBlank u.server_seed_hash <;>
        simp [h1, h2, h3]

/-- A user whose fairness parameters are already present is not touched. -/
theorem fairRepair_of_present (sha256 : String → String) (fr : FairRand)
    (u : UserRow) (h1 : strBlank u.client_seed = false)
    (h2 : strBlank u.server_seed = false)
    (h3 : strBlank u.server_seed_hash = false) :
    fairRepair sha256 fr u = u := by
  unfold fairRepair
  simp [h1, h2, h3]

theorem findUser_updateUser (users : List UserRow) (uid : String)
    (f : UserRow → UserRow) (hf : ∀ x, (f x).tg_user_id = x.tg_user_id) :
    findUser (updateUser users uid f) uid = (findUser users uid).map f := by
  unfold findUser updateUser
  rw [find_map_pres (fun u => u.tg_user_id == uid)
    (fun u => if u.tg_user_id == uid then f u else u)
    (fun x => by by_cases hx : x.tg_user_id == uid <;> simp [hx, hf])]
  cases hfind : users.find? (fun u => u.tg_user_id == uid) with
  | none => rfl
  | some v =>
    have hv := List.find?_some hfind
    show some (if v.tg_user_id == uid then f v else v) = some (f v)
    rw [if_pos hv]

theorem goc_of_found {cfg : Config} {sha256 : String → String} {fr : FairRand}
    {st : ServerState} {uid : String} {u : UserRow}
    (hu : findUser st.users uid = some u) :
    get_or_create_user cfg sha256 fr st uid =
      { st with users := updateUser st.users uid (fairRepair sha256 fr) } := by
  unfold get_or_create_user ensure_user_fairness
  rw [hu]
  simp [hu]

theorem findUser_goc {cfg : Config} {sha256 : String → String} {fr : FairRand}
    {st : ServerState} {uid : String} {u : UserRow}
    (hu : findUser st.users uid = some u) :
    findUser (get_or_create_user cfg sha256 fr st uid).users uid =
      some (fairRepair sha256 fr u) := by
  rw [goc_of_found hu]
  show findUser (updateUser st.users uid (fairRepair sha256 fr)) uid = _
  rw [findUser_updateUser _ _ _ (fairRepair_tg sha256 fr), hu]
  rfl

theorem require_not_banned_of_ok {st : ServerState} {uid : String} {v : UserRow}
    (h : findUser st.users uid = some v) (hb : v.banned = false) :
    require_not_banned st uid = Except.ok () := by
  unfold require_not_banned
  rw [h]
  simp [hb]

theorem require_not_banned_of_banned {st : ServerState} {uid : String}
    {v : UserRow} (h : findUser st.users uid = some v) (hb : v.banned = true) :
    require_not_banned st uid = Except.error (PyErr.httpError 403) := by
  unfold require_not_banned
  rw [h]
  simp [hb]

theorem fetchBalance_of {st : ServerState} {uid : String} {v : UserRow}
    (h : findUser st.users uid = some v) :
    fetchBalance st uid = Except.ok v.balance := by
  unfold fetchBalance
  rw [h]

theorem goc_frame (cfg : Config) (sha256 : String → String) (fr : FairRand)
    (st : ServerState) (uid : String) :
    (get_or_create_user cfg sha256 fr st uid).spins = st.spins ∧
    (get_or_create_user cfg sha256 fr st uid).inventory = st.inventory ∧
    (get_or_create_user cfg sha256 fr st uid).ledger = st.ledger ∧
    (get_or_create_user cfg sha256 fr st uid).idem = st.idem ∧
    (get_or_create_user cfg sha256 fr st uid).prizes = st.prizes ∧
    (get_or_create_user cfg sha256 fr st uid).cases = st.cases ∧
    (get_or_create_user cfg sha256 fr st uid).case_prizes = st.case_prizes := by
  unfold get_or_create_user ensure_user_fairness
  by_cases h1 : (findUser st.users uid).isSome <;>
    simp only [h1, if_true, if_false, Bool.false_eq_true] <;>
    cases h2 : findUser st.users uid <;>
    cases h3 : findUser ((st.users ++
      [{ tg_user_id := uid, balance := cfg.START_BALANCE, banned := false,
         nonce := 0, client_seed := none, server_seed := none,
         server_seed_hash := none, last_spin_at := none }] : List UserRow)) uid <;>
    simp_all

theorem idem_put_frame (st : ServerState) (uid key : String) (resp : RespVal)
    (now : Int) :
    (idem_put st uid key resp now).users = st.users ∧
    (idem_put st uid key resp now).spins = st.spins ∧
    (idem_put st uid key resp now).inventory = st.inventory ∧
    (idem_put st uid key resp now).ledger = st.ledger := by
  unfold idem_put
  refine ⟨?_, ?_, ?_, ?_⟩ <;> split <;> rfl

theorem cleanup_frame (cfg : Config) (now : Int) (st : ServerState) :
    (cleanup_idempotency cfg now st).users = st.users ∧
    (cleanup_idempotency cfg now st).spins = st.spins ∧
    (cleanup_idempotency cfg now st).inventory = st.inventory ∧
    (cleanup_idempotency cfg now st).ledger = st.ledger := by
  unfold cleanup_idempotency
  refine ⟨?_, ?_, ?_, ?_⟩ <;> split <;> rfl

end Roulette

namespace Roulette

theorem find?_append_none {α : Type} (p : α → Bool) {l1 : List α}
    (h : l1.find? p = none) (l2 : List α) :
    (l1 ++ l2).find? p = l2.find? p := by
  induction l1 with
  | nil => rfl
  | cons x xs ih =>
    cases hx : p x with
    | true =>
      rw [List.find?_cons_of_pos _ hx] at h
      cases h
    | false =>
      rw [List.find?_cons_of_neg _ (by simp [hx])] at h
      rw [List.cons_append, List.find?_cons_of_neg _ (by simp [hx])]
      exact ih h

/-- After `get_or_create_user`, the caller's user row exists and its `banned`
flag is the one the state already had (`false` for a freshly created row). -/
theorem findUser_goc_banned (cfg : Config) (sha256 : String → String)
    (fr : FairRand) (st : ServerState) (uid : String) :
    ∃ w, findUser (get_or_create_user cfg sha256 fr st uid).users uid = some w ∧
      w.banned = isBanned st uid := by
  cases hu : findUser st.users uid with
  | some u =>
    refine ⟨fairRepair sha256 fr u, findUser_goc hu, ?_⟩
    unfold isBanned
    rw [hu, fairRepair_banned]
  | none =>
    unfold get_or_create_user
    rw [hu]
    simp only [Option.isSome_none, Bool.false_eq_true, if_false]
    have hnew : findUser (st.users ++
        [{ tg_user_id := uid, balance := cfg.START_BALANCE, banned := false,
           nonce := 0, client_seed := none, server_seed := none,
           server_seed_hash := none, last_spin_at := none }] : List UserRow) uid =
        some { tg_user_id := uid, balance := cfg.START_BALANCE, banned := false,
               nonce := 0, client_seed := none, server_seed := none,
               server_seed_hash := none, last_spin_at := none } := by
      unfold findUser at hu ⊢
      rw [find?_append_none _ hu]
      simp
    unfold ensure_user_fairness
    rw [hnew]
    refine ⟨fairRepair sha256 fr
      { tg_user_id := uid, balance := cfg.START_BALANCE, banned := false,
        nonce := 0, client_seed := none, server_seed := none,
        server_seed_hash := none, last_spin_at := none }, ?_, ?_⟩
    · show findUser (updateUser _ uid (fairRepair sha256 fr)) uid = _
      rw [findUser_updateUser _ _ _ (fairRepair_tg sha256 fr), hnew]
      rfl
    · rw [fairRepair_banned]
      unfold isBanned
      rw [hu]

end Roulette

namespace Roulette

/-- Claim C8 (amended to non-banned callers): every `inventory_sell` call by
a non-banned authenticated user raises an unhandled `NameError`
(`UnboundLocalError`) at the `if case_id is not None:` check, before reading
or deleting any inventory row; and no call whatsoever (banned or not)
ever completes, so the operation never deletes an inventory item and never
credits a balance. -/
theorem inventory_sell_raises_nameError (cfg : Config)
    (sha256 : String → String) (fr : FairRand) (now : Int) (cleanup : Bool)
    (st : ServerState) (uid : String) (inv_id : Int) (idem_key : String) :
    (isBanned st uid = false →
      inventory_sell cfg sha256 fr now cleanup st uid inv_id idem_key =
        Except.error PyErr.nameError) ∧
    ∀ res, inventory_sell cfg sha256 fr now cleanup st uid inv_id idem_key ≠
      Except.ok res := by
  obtain ⟨w, hw, hwb⟩ := findUser_goc_banned cfg sha256 fr st uid
  have main : ∀ hb : isBanned st uid = false,
      inventory_sell cfg sha256 fr now cleanup st uid inv_id idem_key =
        Except.error PyErr.nameError := by
    intro hb
    unfold inventory_sell
    simp only []
    rw [require_not_banned_of_ok hw (hwb.trans hb)]
    rfl
  refine ⟨main, ?_⟩
  intro res
  cases hb : isBanned st uid with
  | false =>
    rw [main hb]
    intro h
    cases h
  | true =>
    unfold inventory_sell
    simp only []
    rw [require_not_banned_of_banned hw (hwb.trans hb)]
    intro h
    cases h

end Roulette

namespace Roulette

/-- Counterexample to C8 as universally stated: a banned — though
authenticated — caller is rejected by `require_not_banned` (line 1055) with
`HTTPException(403)` before the unbound-local read is reached, so not every
authenticated call raises `NameError`. -/
theorem inventory_sell_banned_counterexample :
    inventory_sell cfgW shaW frW 0 false stBannedW "42" 7 "" =
      Except.error (PyErr.httpError 403) := by rfl

/-- Witness for C8: a concrete non-banned caller gets the `NameError`. -/
theorem inventory_sell_raises_nameError_witness :
    isBanned stW "42" = false ∧
    inventory_sell cfgW shaW frW 0 false stW "42" 7 "" =
      Except.error PyErr.nameError :=
  ⟨by decide,
    (inventory_sell_raises_nameError cfgW shaW frW 0 false stW "42" 7 "").1
      (by decide)⟩

theorem findUser_addBalance (st : ServerState) (uid : String) (d : Int) :
    findUser (addBalance st uid d).users uid =
      (findUser st.users uid).map (fun v => { v with balance := v.balance + d }) := by
  unfold addBalance
  exact findUser_updateUser _ _ _ (fun x => rfl)

theorem fetchBalance_addBalance {st : ServerState} {uid : String} {v : UserRow}
    (h : findUser st.users uid = some v) (d : Int) :
    fetchBalance (addBalance st uid d) uid = Except.ok (v.balance + d) := by
  unfold fetchBalance
  rw [findUser_addBalance, h]
  rfl

end Roulette

namespace Roulette

theorem idem_put_users (st : ServerState) (uid key : String) (resp : RespVal)
    (now : Int) : (idem_put st uid key resp now).users = st.users := by
  unfold idem_put; split <;> rfl

theorem idem_put_spins (st : ServerState) (uid key : String) (resp : RespVal)
    (now : Int) : (idem_put st uid key resp now).spins = st.spins := by
  unfold idem_put; split <;> rfl

theorem idem_put_inventory (st : ServerState) (uid key : String)
    (resp : RespVal) (now : Int) :
    (idem_put st uid key resp now).inventory = st.inventory := by
  unfold idem_put; split <;> rfl

theorem idem_put_ledger (st : ServerState) (uid key : String) (resp : RespVal)
    (now : Int) : (idem_put st uid key resp now).ledger = st.ledger := by
  unfold idem_put; split <;> rfl

theorem cleanup_users (cfg : Config) (now : Int) (st : ServerState) :
    (cleanup_idempotency cfg now st).users = st.users := by
  unfold cleanup_idempotency; split <;> rfl

theorem cleanup_spins (cfg : Config) (now : Int) (st : ServerState) :
    (cleanup_idempotency cfg now st).spins = st.spins := by
  unfold cleanup_idempotency; split <;> rfl

theorem cleanup_inventory (cfg : Config) (now : Int) (st : ServerState) :
    (cleanup_idempotency cfg now st).inventory = st.inventory := by
  unfold cleanup_idempotency; split <;> rfl

theorem cleanup_ledger (cfg : Config) (now : Int) (st : ServerState) :
    (cleanup_idempotency cfg now st).ledger = st.ledger := by
  unfold cleanup_idempotency; split <;> rfl

theorem ledger_add_users (st : ServerState) (uid : String) (d : Int)
    (r : String) (ref : Option String) (now : Int) :
    (ledger_add st uid d r ref now).users = st.users := rfl

theorem ledger_add_spins (st : ServerState) (uid : String) (d : Int)
    (r : String) (ref : Option String) (now : Int) :
    (ledger_add st uid d r ref now).spins = st.spins := rfl

theorem ledger_add_inventory (st : ServerState) (uid : String) (d : Int)
    (r : String) (ref : Option String) (now : Int) :
    (ledger_add st uid d r ref now).inventory = st.inventory := rfl

theorem addBalance_spins (st : ServerState) (uid : String) (d : Int) :
    (addBalance st uid d).spins = st.spins := rfl

theorem addBalance_inventory (st : ServerState) (uid : String) (d : Int) :
    (addBalance st uid d).inventory = st.inventory := rfl

/-- Claim C10: a spin is settled at most once — on a spin already `sold` or
`kept`, `claim` (either action) reports the current status and balance and
leaves the balance, the inventory, the ledger and the spins rows unchanged;
a `sell` on a pending spin credits exactly `prize_cost` and marks it sold. -/
theorem claim_settles_at_most_once (cfg : Config) (sha256 : String → String)
    (fr : FairRand) (now : Int) (cleanup : Bool) (st : ServerState)
    (uid spin_id action idem_key : String) (u : UserRow) (row : SpinRow)
    (hu : findUser st.users uid = some u) (hb : u.banned = false)
    (hrow : st.spins.find?
      (fun sp => sp.spin_id == spin_id && sp.tg_user_id == uid) = some row)
    (hidem : idem_get st uid idem_key = none) :
    (row.status = "sold" ∨ row.status = "kept" →
      ∃ st1, claim cfg sha256 fr now cleanup st uid spin_id action idem_key =
          Except.ok (st1, RespVal.claimR
            { ok := true, status := row.status, balance := u.balance,
              credited := none }) ∧
        balanceOf st1 uid = some u.balance ∧
        st1.spins = st.spins ∧ st1.inventory = st.inventory ∧
        st1.ledger = st.ledger) ∧
    (row.status = "pending" →
      ∃ st1, claim cfg sha256 fr now cleanup st uid spin_id "sell" idem_key =
          Except.ok (st1, RespVal.claimR
            { ok := true, status := "sold",
              balance := u.balance + row.prize_cost,
              credited := some row.prize_cost }) ∧
        balanceOf st1 uid = some (u.balance + row.prize_cost) ∧
        st1.spins = st.spins.map (fun sp =>
          if sp.spin_id == spin_id then { sp with status := "sold" } else sp) ∧
        st1.inventory = st.inventory) := by
  have hGu := @findUser_goc cfg sha256 fr st uid u hu
  have hrb : require_not_banned (get_or_create_user cfg sha256 fr st uid) uid =
      Except.ok () :=
    require_not_banned_of_ok hGu (by rw [fairRepair_banned]; exact hb)
  have hGf := goc_frame cfg sha256 fr st uid
  have hreplay : (if idem_key ≠ "" then
      idem_get (get_or_create_user cfg sha256 fr st uid) uid idem_key
    else none) = none := by
    by_cases hk : idem_key = ""
    · simp [hk]
    · have hg : idem_get (get_or_create_user cfg sha256 fr st uid) uid
          idem_key = none := by
        unfold idem_get at hidem ⊢
        rw [hGf.2.2.2.1]
        exact hidem
      simp [hk, hg]
  have hGfind : (get_or_create_user cfg sha256 fr st uid).spins.find?
      (fun sp => sp.spin_id == spin_id && sp.tg_user_id == uid) = some row := by
    rw [hGf.1]; exact hrow
  have hGbal : fetchBalance (get_or_create_user cfg sha256 fr st uid) uid =
      Except.ok u.balance := by
    have := fetchBalance_of hGu
    rwa [fairRepair_balance] at this
  constructor
  · intro hst
    refine ⟨?w1, ?e1, ?b1, ?s1, ?i1, ?l1⟩
    case e1 =>
      unfold claim
      simp only []
      rw [hrb, hreplay, hGfind]
      simp only []
      rw [if_pos hst]
      unfold claim_settled
      rw [hGbal]
      exact rfl
    case b1 =>
      by_cases hk : idem_key = "" <;>
        simp [hk, balanceOf, idem_put_users, hGu, fairRepair_balance]
    case s1 =>
      by_cases hk : idem_key = "" <;>
        simp [hk, idem_put_spins, hGf.1]
    case i1 =>
      by_cases hk : idem_key = "" <;>
        simp [hk, idem_put_inventory, hGf.2.1]
    case l1 =>
      by_cases hk : idem_key = "" <;>
        simp [hk, idem_put_ledger, hGf.2.2.1]
  · intro hpend
    have hnot : ¬ (row.status = "sold" ∨ row.status = "kept") := by
      rw [hpend]; simp
    have hAbal : fetchBalance
        (addBalance (get_or_create_user cfg sha256 fr st uid) uid
          row.prize_cost) uid = Except.ok (u.balance + row.prize_cost) := by
      rw [fetchBalance_addBalance hGu, fairRepair_balance]
    refine ⟨?w2, ?e2, ?b2, ?s2, ?i2⟩
    case e2 =>
      unfold claim
      simp only []
      rw [hrb, hreplay, hGfind]
      simp only []
      rw [if_neg hnot, if_pos trivial]
      unfold claim_sell
      simp only []
      rw [hAbal]
      exact rfl
    case b2 =>
      by_cases hc : cleanup <;> by_cases hk : idem_key = "" <;>
        simp [hc, hk, balanceOf, cleanup_users, idem_put_users,
          ledger_add_users, findUser_addBalance, hGu, fairRepair_balance]
    case s2 =>
      by_cases hc : cleanup <;> by_cases hk : idem_key = "" <;>
        simp [hc, hk, cleanup_spins, idem_put_spins, ledger_add_spins,
          addBalance_spins, hGf.1]
    case i2 =>
      by_cases hc : cleanup <;> by_cases hk : idem_key = "" <;>
        simp [hc, hk, cleanup_inventory, idem_put_inventory,
          ledger_add_inventory, addBalance_inventory, hGf.2.1]

end Roulette

namespace Roulette

/-- Witness for C10: on a spin already sold, a further `claim` (action
`keep`) just reports `sold` and balance 100 while touching nothing; on the
pending spin, `sell` credits exactly `prize_cost = 30` and marks it sold. -/
theorem claim_settles_at_most_once_witness :
    (∃ st1, claim cfgW shaW frW 1000 false stSoldW "42" "sp1" "keep" "" =
        Except.ok (st1, RespVal.claimR
          { ok := true, status := "sold", balance := 100, credited := none }) ∧
      balanceOf st1 "42" = some 100 ∧
      st1.spins = stSoldW.spins ∧ st1.inventory = stSoldW.inventory ∧
      st1.ledger = stSoldW.ledger) ∧
    (∃ st1, claim cfgW shaW frW 1000 false stW "42" "sp1" "sell" "" =
        Except.ok (st1, RespVal.claimR
          { ok := true, status := "sold", balance := 130,
            credited := some 30 }) ∧
      balanceOf st1 "42" = some 130 ∧
      st1.spins = stW.spins.map (fun sp =>
        if sp.spin_id == "sp1" then { sp with status := "sold" } else sp) ∧
      st1.inventory = stW.inventory) :=
  ⟨(claim_settles_at_most_once cfgW shaW frW 1000 false stSoldW "42" "sp1"
      "keep" "" userW { spinPendingW with status := "sold" }
      rfl rfl rfl rfl).1 (Or.inl rfl),
   (claim_settles_at_most_once cfgW shaW frW 1000 false stW "42" "sp1"
      "sell" "" userW spinPendingW rfl rfl rfl rfl).2 rfl⟩

end Roulette

namespace Roulette

theorem sumWeights_nil : sumWeights [] = 0 := rfl

theorem sumWeights_cons (p : PrizeDict) (ps : List PrizeDict) :
    sumWeights (p :: ps) = p.weight + sumWeights ps := rfl

theorem strBlank_getD (o : Option String) :
    strBlank o = (pyStrip (o.getD "") == "") := by
  cases o <;> rfl

/-- The selection loop lands exactly on the prize whose cumulative-weight
interval contains `pick`. -/
theorem chooseLoop_interval (pick : Int) :
    ∀ (ps : List PrizeDict) (acc : Int), acc ≤ pick →
      pick < acc + sumWeights ps →
      ∃ i, ∃ hi : i < ps.length,
        chooseLoop pick acc ps = some (ps.get ⟨i, hi⟩) ∧
        acc + sumWeights (ps.take i) ≤ pick ∧
        pick < acc + sumWeights (ps.take (i + 1)) := by
  intro ps
  induction ps with
  | nil =>
    intro acc h1 h2
    exfalso
    rw [sumWeights_nil] at h2
    omega
  | cons p ps ih =>
    intro acc h1 h2
    by_cases hp : pick < acc + p.weight
    · refine ⟨0, by simp, ?_, ?_, ?_⟩
      · simp [chooseLoop, hp]
      · simpa [sumWeights_nil] using h1
      · simpa [sumWeights_cons, sumWeights_nil] using hp
    · have h1x : acc + p.weight ≤ pick := by omega
      have h2x : pick < (acc + p.weight) + sumWeights ps := by
        rw [sumWeights_cons] at h2; omega
      obtain ⟨i, hi, hcl, hlo, hhi⟩ := ih (acc + p.weight) h1x h2x
      refine ⟨i + 1, by simpa using Nat.succ_lt_succ hi, ?_, ?_, ?_⟩
      · simpa [chooseLoop, hp] using hcl
      · rw [List.take_succ_cons, sumWeights_cons]; omega
      · rw [List.take_succ_cons, sumWeights_cons]; omega

/-- Lines 1385–1395 pick the prize whose cumulative interval contains the
reduced RNG value whenever that value lies in `[0, total)`. -/
theorem pickPrize_interval (ps : List PrizeDict) (pick : Int)
    (h1 : 0 ≤ pick) (h2 : pick < sumWeights ps) :
    ∃ i, ∃ hi : i < ps.length,
      pickPrize ps pick = some (ps.get ⟨i, hi⟩) ∧
      sumWeights (ps.take i) ≤ pick ∧
      pick < sumWeights (ps.take (i + 1)) := by
  obtain ⟨i, hi, hcl, hlo, hhi⟩ := chooseLoop_interval pick ps 0 h1 (by omega)
  refine ⟨i, hi, ?_, by omega, by omega⟩
  unfold pickPrize
  rw [hcl]

/-- `get_or_create_user` touches only the `users` table, so the active-prize
list `spin` draws from is unchanged. -/
theorem effectivePrizes_goc (cfg : Config) (sha256 : String → String)
    (fr : FairRand) (st : ServerState) (uid : String) (case_id : Option Int) :
    effectivePrizes (get_or_create_user cfg sha256 fr st uid) case_id =
      effectivePrizes st case_id := by
  have hGf := goc_frame cfg sha256 fr st uid
  unfold effectivePrizes fetch_active_prizes
  cases case_id with
  | none => rw [hGf.2.2.2.2.1]
  | some c => rw [hGf.2.2.2.2.2.2, hGf.2.2.2.2.1]

end Roulette

namespace Roulette

/-- Positive execution of `spin`: with the caller present, not banned, seeds
in place, no pending spin, no cooldown, funds sufficient and positive total
weight, `spin` succeeds and returns precisely the prize picked by the
selection loop — for any values of the seed-rotation, uuid, cleanup and
fresh-seed randomness. -/
theorem spin_runs (cfg : Config) (sha256 : String → String)
    (hmacSha256 : String → String → List Nat) (fr : FairRand)
    (next_server_seed spin_id : String) (now : Int) (cleanup : Bool)
    (st : ServerState) (uid : String) (req_cost : Int) (case_id : Option Int)
    (idem_key : String) (u : UserRow) (p : PrizeDict)
    (hu : findUser st.users uid = some u) (hb : u.banned = false)
    (hcs : ¬ pyStrip (u.client_seed.getD "") = "")
    (hss : ¬ pyStrip (u.server_seed.getD "") = "")
    (hsh : ¬ pyStrip (u.server_seed_hash.getD "") = "")
    (hidem : idem_get st uid idem_key = none)
    (hpend : st.spins.find?
      (fun sp => sp.tg_user_id == uid && sp.status == "pending") = none)
    (hcool : ¬ (0 < cfg.SPIN_COOLDOWN_SEC ∧ u.last_spin_at.getD 0 ≠ 0 ∧
      now - u.last_spin_at.getD 0 < cfg.SPIN_COOLDOWN_SEC))
    (hbal : ¬ (u.balance < (if req_cost == 0 then 25 else req_cost)))
    (hw : 0 < sumWeights (effectivePrizes st case_id))
    (hchoose : pickPrize (effectivePrizes st case_id)
      ((rngInt hmacSha256 (pyStrip (u.server_seed.getD "")) uid
        (pyStrip (u.client_seed.getD "")) u.nonce
        (if req_cost == 0 then 25 else req_cost) : Int) %
        sumWeights (effectivePrizes st case_id)) = some p) :
    ∃ st1 r1, spin cfg sha256 hmacSha256 fr next_server_seed spin_id now
        cleanup st uid req_cost case_id idem_key =
      Except.ok (st1, RespVal.spinR r1) ∧ r1.id = p.id := by
  have hGu0 := @findUser_goc cfg sha256 fr st uid u hu
  have hfix : fairRepair sha256 fr u = u :=
    fairRepair_of_present _ _ _
      (by rw [strBlank_getD]; simp [hcs])
      (by rw [strBlank_getD]; simp [hss])
      (by rw [strBlank_getD]; simp [hsh])
  have hGu : findUser (get_or_create_user cfg sha256 fr st uid).users uid =
      some u := by rw [hGu0, hfix]
  have hrb := require_not_banned_of_ok hGu hb
  have hGf := goc_frame cfg sha256 fr st uid
  have hreplay : (if idem_key ≠ "" then
      idem_get (get_or_create_user cfg sha256 fr st uid) uid idem_key
    else none) = none := by
    by_cases hk : idem_key = ""
    · simp [hk]
    · have hg : idem_get (get_or_create_user cfg sha256 fr st uid) uid
          idem_key = none := by
        unfold idem_get at hidem ⊢
        rw [hGf.2.2.2.1]
        exact hidem
      simp [hk, hg]
  have hpend1 : (get_or_create_user cfg sha256 fr st uid).spins.find?
      (fun sp => sp.tg_user_id == uid && sp.status == "pending") = none := by
    rw [hGf.1]; exact hpend
  have heff := effectivePrizes_goc cfg sha256 fr st uid case_id
  unfold spin
  simp only []
  rw [hrb, hreplay]
  simp only []
  rw [if_neg (by simp [hpend1])]
  rw [hGu]
  simp only []
  rw [if_neg (by simp [hcs, hss, hsh])]
  unfold spinCore
  simp only []
  rw [if_neg hcool, if_neg hbal, heff]
  rw [if_neg (by omega)]
  unfold rngInt at hchoose
  rw [hchoose]
  exact ⟨_, _, rfl, rfl⟩

end Roulette

namespace Roulette

/-- Claim C9: the prize chosen by `spin` is a deterministic function of
(uid, client_seed, server_seed, nonce, cost) and the fixed active-prize
list — two executions from the same state, however the seed-rotation, uuid,
timing and cleanup randomness differ, pick the same prize, namely the one
whose cumulative-weight interval contains
`HMAC-SHA256(server_seed, uid|client_seed|nonce|cost)` taken as a big-endian
integer modulo the sum of the prize weights. -/
theorem spin_prize_deterministic (cfg : Config)
    (hmacSha256 : String → String → List Nat)
    (sha1 sha2 : String → String) (fr1 fr2 : FairRand)
    (next1 next2 sid1 sid2 : String) (now1 now2 : Int) (clean1 clean2 : Bool)
    (key1 key2 : String) (st : ServerState) (uid : String) (req_cost : Int)
    (case_id : Option Int) (u : UserRow)
    (hu : findUser st.users uid = some u) (hb : u.banned = false)
    (hcs : ¬ pyStrip (u.client_seed.getD "") = "")
    (hss : ¬ pyStrip (u.server_seed.getD "") = "")
    (hsh : ¬ pyStrip (u.server_seed_hash.getD "") = "")
    (hidem1 : idem_get st uid key1 = none)
    (hidem2 : idem_get st uid key2 = none)
    (hpend : st.spins.find?
      (fun sp => sp.tg_user_id == uid && sp.status == "pending") = none)
    (hcool1 : ¬ (0 < cfg.SPIN_COOLDOWN_SEC ∧ u.last_spin_at.getD 0 ≠ 0 ∧
      now1 - u.last_spin_at.getD 0 < cfg.SPIN_COOLDOWN_SEC))
    (hcool2 : ¬ (0 < cfg.SPIN_COOLDOWN_SEC ∧ u.last_spin_at.getD 0 ≠ 0 ∧
      now2 - u.last_spin_at.getD 0 < cfg.SPIN_COOLDOWN_SEC))
    (hbal : ¬ (u.balance < (if req_cost == 0 then 25 else req_cost)))
    (hw : 0 < sumWeights (effectivePrizes st case_id)) :
    ∃ st1 r1 st2 r2 i, ∃ hi : i < (effectivePrizes st case_id).length,
      spin cfg sha1 hmacSha256 fr1 next1 sid1 now1 clean1 st uid req_cost
        case_id key1 = Except.ok (st1, RespVal.spinR r1) ∧
      spin cfg sha2 hmacSha256 fr2 next2 sid2 now2 clean2 st uid req_cost
        case_id key2 = Except.ok (st2, RespVal.spinR r2) ∧
      r1.id = r2.id ∧
      r1.id = ((effectivePrizes st case_id).get ⟨i, hi⟩).id ∧
      sumWeights ((effectivePrizes st case_id).take i) ≤
        (rngInt hmacSha256 (pyStrip (u.server_seed.getD "")) uid
          (pyStrip (u.client_seed.getD "")) u.nonce
          (if req_cost == 0 then 25 else req_cost) : Int) %
          sumWeights (effectivePrizes st case_id) ∧
      (rngInt hmacSha256 (pyStrip (u.server_seed.getD "")) uid
          (pyStrip (u.client_seed.getD "")) u.nonce
          (if req_cost == 0 then 25 else req_cost) : Int) %
          sumWeights (effectivePrizes st case_id) <
        sumWeights ((effectivePrizes st case_id).take (i + 1)) := by
  have h0 : 0 ≤ (rngInt hmacSha256 (pyStrip (u.server_seed.getD "")) uid
      (pyStrip (u.client_seed.getD "")) u.nonce
      (if req_cost == 0 then 25 else req_cost) : Int) %
      sumWeights (effectivePrizes st case_id) :=
    Int.emod_nonneg _ (by omega)
  have hlt : (rngInt hmacSha256 (pyStrip (u.server_seed.getD "")) uid
      (pyStrip (u.client_seed.getD "")) u.nonce
      (if req_cost == 0 then 25 else req_cost) : Int) %
      sumWeights (effectivePrizes st case_id) <
      sumWeights (effectivePrizes st case_id) :=
    Int.emod_lt_of_pos _ hw
  obtain ⟨i, hi, hpk, hlo, hhi⟩ := pickPrize_interval _ _ h0 hlt
  obtain ⟨st1, r1, he1, hid1⟩ := spin_runs cfg sha1 hmacSha256 fr1 next1 sid1
    now1 clean1 st uid req_cost case_id key1 u _ hu hb hcs hss hsh hidem1
    hpend hcool1 hbal hw hpk
  obtain ⟨st2, r2, he2, hid2⟩ := spin_runs cfg sha2 hmacSha256 fr2 next2 sid2
    now2 clean2 st uid req_cost case_id key2 u _ hu hb hcs hss hsh hidem2
    hpend hcool2 hbal hw hpk
  exact ⟨st1, r1, st2, r2, i, hi, he1, he2, by rw [hid1, hid2],
    by rw [hid1], hlo, hhi⟩

end Roulette

namespace Roulette

/-- Witness for C9: from the concrete state, two spins with different hash
stand-ins for seed rotation, different uuids, times and cleanup flags still
pick the same prize — the first default prize, whose cumulative interval
`[0, 50)` contains `258 % 125 = 8`. -/
theorem spin_prize_deterministic_witness :
    ∃ st1 r1 st2 r2 i, ∃ hi : i < (effectivePrizes stSoldW none).length,
      spin cfgW shaW hmacW frW "n1" "id1" 1000 false stSoldW "42" 25 none "" =
        Except.ok (st1, RespVal.spinR r1) ∧
      spin cfgW (fun s => s ++ "!") hmacW
          { clientSeed := "c2", serverSeed := "s2" } "n2" "id2" 2000 true
          stSoldW "42" 25 none "" =
        Except.ok (st2, RespVal.spinR r2) ∧
      r1.id = r2.id ∧
      r1.id = ((effectivePrizes stSoldW none).get ⟨i, hi⟩).id ∧
      sumWeights ((effectivePrizes stSoldW none).take i) ≤ 8 ∧
      (8 : Int) < sumWeights ((effectivePrizes stSoldW none).take (i + 1)) :=
  spin_prize_deterministic cfgW hmacW shaW (fun s => s ++ "!") frW
    { clientSeed := "c2", serverSeed := "s2" } "n1" "n2" "id1" "id2" 1000 2000
    false true "" "" stSoldW "42" 25 none userW rfl rfl (by decide) (by decide)
    (by decide) rfl rfl rfl (by decide) (by decide) (by decide) (by decide)

end Roulette
